import Mathlib

/-!
Verification of the JIRA sprint/epic aggregation engine of
`jira-analysis/workflows/analyze.py`.

The Python code is shallowly embedded: free-form JSON dictionaries become
typed records whose fields carry `Option` where the source defaults absent
values, Python `dict`s become insertion-ordered association lists with
in-place update (matching CPython dict semantics), Python floats used for
percentages become exact rationals (`ℚ`), and `datetime` values become a
six-component record compared lexicographically, exactly as CPython
compares `datetime` objects.
-/

namespace EiqJira

/-! ### Association lists modelling Python dicts

A Python `dict` preserves insertion order; assigning to an existing key
updates the value in place without moving the key.  `alUpdate d k f`
performs `d[k] = f(d.get(k))`, which covers plain assignment
(`f := fun _ => v`), the `d[k] = d.get(k, 0) + v` accumulation idiom and
the `d.setdefault(k, []).append(x)` idiom used in the source. -/

def alGet {κ β : Type} [DecidableEq κ] : List (κ × β) → κ → Option β
  | [], _ => none
  | (k', v') :: rest, k => if k' = k then some v' else alGet rest k

def alUpdate {κ β : Type} [DecidableEq κ] (d : List (κ × β)) (k : κ)
    (f : Option β → β) : List (κ × β) :=
  match d with
  | [] => [(k, f none)]
  | (k', v') :: rest =>
      if k' = k then (k', f (some v')) :: rest else (k', v') :: alUpdate rest k f

def alKeys {κ β : Type} (d : List (κ × β)) : List κ := d.map Prod.fst

def alValues {κ β : Type} (d : List (κ × β)) : List β := d.map Prod.snd

theorem alGet_alUpdate {κ β : Type} [DecidableEq κ] (d : List (κ × β)) (k k' : κ)
    (f : Option β → β) :
    alGet (alUpdate d k f) k' = if k = k' then some (f (alGet d k)) else alGet d k' := by
  induction d with
  | nil =>
      by_cases h : k = k' <;> simp [alUpdate, alGet, h]
  | cons p rest ih =>
      obtain ⟨k₀, v₀⟩ := p
      by_cases h0 : k₀ = k
      · subst h0
        by_cases h : k₀ = k' <;> simp [alUpdate, alGet, h]
      · by_cases h : k₀ = k'
        · subst h
          have : ¬ k = k₀ := fun hh => h0 hh.symm
          simp [alUpdate, alGet, h0, this]
        · simp [alUpdate, alGet, h0, h, ih]

theorem alGet_mem {κ β : Type} [DecidableEq κ] (d : List (κ × β)) (k : κ) (v : β)
    (h : alGet d k = some v) : (k, v) ∈ d := by
  induction d with
  | nil => simp [alGet] at h
  | cons p rest ih =>
      obtain ⟨k₀, v₀⟩ := p
      by_cases hk : k₀ = k
      · subst hk
        simp [alGet] at h
        simp [h]
      · simp [alGet, hk] at h
        exact List.mem_cons_of_mem _ (ih h)

theorem alKeys_alUpdate {κ β : Type} [DecidableEq κ] (d : List (κ × β)) (k : κ)
    (f : Option β → β) :
    alKeys (alUpdate d k f) = if k ∈ alKeys d then alKeys d else alKeys d ++ [k] := by
  induction d with
  | nil => simp [alUpdate, alKeys]
  | cons p rest ih =>
      obtain ⟨k₀, v₀⟩ := p
      by_cases h0 : k₀ = k
      · subst h0
        simp [alUpdate, alKeys]
      · have hne : ¬ k = k₀ := fun hh => h0 hh.symm
        have hl : alKeys (alUpdate ((k₀, v₀) :: rest) k f)
            = k₀ :: alKeys (alUpdate rest k f) := by
          simp [alUpdate, h0, alKeys]
        rw [hl, ih]
        simp only [alKeys, List.map_cons] at *
        by_cases hmem : k ∈ List.map Prod.fst rest
        · simp [List.mem_cons, hmem, hne]
        · simp [List.mem_cons, hmem, hne]

theorem alKeys_nodup_alUpdate {κ β : Type} [DecidableEq κ] (d : List (κ × β)) (k : κ)
    (f : Option β → β) (h : (alKeys d).Nodup) : (alKeys (alUpdate d k f)).Nodup := by
  rw [alKeys_alUpdate]
  by_cases hmem : k ∈ alKeys d
  · simpa [hmem]
  · simpa [hmem, List.nodup_append] using h

theorem alGet_of_mem_nodup {κ β : Type} [DecidableEq κ] (d : List (κ × β)) (k : κ) (v : β)
    (hnd : (alKeys d).Nodup) (hmem : (k, v) ∈ d) : alGet d k = some v := by
  induction d with
  | nil => simp at hmem
  | cons p rest ih =>
      obtain ⟨k₀, v₀⟩ := p
      have hnd' : k₀ ∉ alKeys rest ∧ (alKeys rest).Nodup := by
        rw [show alKeys ((k₀, v₀) :: rest) = k₀ :: alKeys rest from rfl] at hnd
        exact List.nodup_cons.mp hnd
      rcases List.mem_cons.mp hmem with h | h
      · obtain ⟨hk, hv⟩ := Prod.ext_iff.mp h
        simp only at hk hv
        subst hk
        subst hv
        simp [alGet]
      · by_cases hk : k₀ = k
        · subst hk
          exact absurd (show k₀ ∈ alKeys rest from List.mem_map_of_mem Prod.fst h) hnd'.1
        · simpa [alGet, hk] using ih hnd'.2 h

/-- Main characterization of a lookup in a dict built by a left fold of
per-item updates: only the items whose key equals the queried key matter,
in order. -/
theorem alGet_foldl_update {α κ β : Type} [DecidableEq κ] (key : α → κ)
    (upd : α → Option β → β) (l : List α) (d : List (κ × β)) (k : κ) :
    alGet (l.foldl (fun d x => alUpdate d (key x) (upd x)) d) k
      = (l.filter (fun x => decide (key x = k))).foldl
          (fun o x => some (upd x o)) (alGet d k) := by
  induction l generalizing d with
  | nil => simp
  | cons x t ih =>
      rw [List.foldl_cons, ih, alGet_alUpdate, List.filter_cons]
      by_cases h : key x = k
      · simp [h]
      · simp [h]

theorem foldl_const_some {α β : Type} (g : α → β) (l : List α) (o : Option β) :
    l.foldl (fun _ x => some (g x)) o
      = match l.getLast? with
        | some x => some (g x)
        | none => o := by
  induction l generalizing o with
  | nil => simp
  | cons x t ih =>
      cases t with
      | nil => simp
      | cons y u =>
          have h1 : (x :: y :: u).foldl (fun _ z => some (g z)) o
              = (y :: u).foldl (fun _ z => some (g z)) (some (g x)) := rfl
          rw [h1, ih]
          obtain ⟨z, hz⟩ : ∃ z, (y :: u).getLast? = some z :=
            ⟨(y :: u).getLast (by simp), List.getLast?_eq_getLast _ _⟩
          rw [show (x :: y :: u).getLast? = (y :: u).getLast? from rfl, hz]

theorem foldl_acc_add {α β : Type} [AddMonoid β] (f : α → β) (l : List α) (a : β) :
    l.foldl (fun o x => some ((o.getD 0) + f x)) (some a)
      = some (a + (l.map f).sum) := by
  induction l generalizing a with
  | nil => simp
  | cons x t ih => simp [ih, add_assoc]

theorem foldl_none_add {α β : Type} [AddMonoid β] (f : α → β) (l : List α) :
    l.foldl (fun o x => some ((o.getD 0) + f x)) none
      = if l.isEmpty then none else some ((l.map f).sum) := by
  cases l with
  | nil => simp
  | cons x t => simp [foldl_acc_add]

theorem foldl_acc_append {α β : Type} (f : α → β) (l : List α) (a : List β) :
    l.foldl (fun o x => some ((o.getD []) ++ [f x])) (some a)
      = some (a ++ l.map f) := by
  induction l generalizing a with
  | nil => simp
  | cons x t ih => simp [ih]

theorem foldl_none_append {α β : Type} (f : α → β) (l : List α) :
    l.foldl (fun o x => some ((o.getD []) ++ [f x])) none
      = if l.isEmpty then none else some (l.map f) := by
  cases l with
  | nil => simp
  | cons x t => simp [foldl_acc_append]

/-! ### Decimal rendering and parsing of numbers

Python renders an `int` into an f-string as its plain decimal digits and
`int(...)` of a digit string parses them back.  Both are modelled here by
explicit digit lists so that round-trip facts can be proved for an
arbitrary year. -/

def natDigitsF : Nat → Nat → List Nat
  | 0, _ => []
  | fuel + 1, n => if n < 10 then [n] else natDigitsF fuel (n / 10) ++ [n % 10]

/-- Decimal digits of a natural number, most significant first. -/
def natDigits (n : Nat) : List Nat := natDigitsF (n + 1) n

theorem natDigitsF_fuel (fuel n : Nat) (h : n < fuel) :
    natDigitsF fuel n = natDigitsF (n + 1) n := by
  induction fuel using Nat.strong_induction_on generalizing n with
  | _ fuel ih =>
      cases fuel with
      | zero => omega
      | succ f =>
          by_cases hn : n < 10
          · simp [natDigitsF, hn]
          · have h10 : n / 10 < n := Nat.div_lt_self (by omega) (by omega)
            have e1 : natDigitsF f (n / 10) = natDigitsF (n / 10 + 1) (n / 10) :=
              ih f (by omega) (n / 10) (by omega)
            have e2 : natDigitsF n (n / 10) = natDigitsF (n / 10 + 1) (n / 10) :=
              ih n (by omega) (n / 10) h10
            simp only [natDigitsF, if_neg hn, e1, e2]

theorem natDigits_eq (n : Nat) :
    natDigits n = if n < 10 then [n] else natDigits (n / 10) ++ [n % 10] := by
  by_cases hn : n < 10
  · simp [natDigits, natDigitsF, hn]
  · have h10 : n / 10 < n := Nat.div_lt_self (by omega) (by omega)
    rw [natDigits, show natDigitsF (n + 1) n = natDigitsF n (n / 10) ++ [n % 10] by
      simp [natDigitsF, hn]]
    rw [natDigitsF_fuel n (n / 10) h10, if_neg hn, natDigits]

/-- Digits of a four-digit year, spelled out. -/
theorem natDigits_four (y : Nat) (h1 : 1000 ≤ y) (h2 : y ≤ 9999) :
    natDigits y = [y / 1000, y / 100 % 10, y / 10 % 10, y % 10] := by
  have e3 : natDigits (y / 1000) = [y / 1000] := by
    rw [natDigits_eq]
    have : y / 1000 < 10 := by omega
    simp [this]
  have e2 : natDigits (y / 100) = [y / 1000, y / 100 % 10] := by
    rw [natDigits_eq]
    have h : ¬ y / 100 < 10 := by omega
    have hd : y / 100 / 10 = y / 1000 := by omega
    simp [h, hd, e3]
  have e1 : natDigits (y / 10) = [y / 1000, y / 100 % 10, y / 10 % 10] := by
    rw [natDigits_eq]
    have h : ¬ y / 10 < 10 := by omega
    have hd : y / 10 / 10 = y / 100 := by omega
    simp [h, hd, e2]
  rw [natDigits_eq]
  have h : ¬ y < 10 := by omega
  simp [h, e1]

/-- ASCII character for a decimal digit. -/
def digitChar (n : Nat) : Char := Char.ofNat (48 + n)

/-- Numeric value of an ASCII digit character. -/
def digitVal (c : Char) : Nat := c.toNat - 48

/-- Decimal rendering of a natural number as characters (Python `str(n)` /
f-string interpolation of an `int`). -/
def natReprChars (n : Nat) : List Char := (natDigits n).map digitChar

/-- Decimal rendering of a natural number as a `String`. -/
def natReprStr (n : Nat) : String := String.mk (natReprChars n)

theorem digitVal_digitChar (k : Nat) (h : k < 10) : digitVal (digitChar k) = k := by
  interval_cases k <;> rfl

theorem isDigit_digitChar (k : Nat) (h : k < 10) : (digitChar k).isDigit = true := by
  interval_cases k <;> rfl

/-- Python `int(s)` on a plain digit string, modelled on character lists:
`none` when the characters are not all decimal digits (or empty). -/
def listToNat (l : List Char) : Option Nat :=
  if l.isEmpty then none
  else if l.all Char.isDigit then some (l.foldl (fun acc c => acc * 10 + digitVal c) 0) else none

theorem foldl_digits (ds : List Nat) (h : ∀ d ∈ ds, d < 10) (acc : Nat) :
    (ds.map digitChar).foldl (fun acc c => acc * 10 + digitVal c) acc
      = ds.foldl (fun acc d => acc * 10 + d) acc := by
  induction ds generalizing acc with
  | nil => simp
  | cons d t ih =>
      have hd : d < 10 := h d (by simp)
      simp only [List.map_cons, List.foldl_cons, digitVal_digitChar d hd]
      exact ih (fun x hx => h x (by simp [hx])) _

theorem listToNat_natReprChars_four (y : Nat) (h1 : 1000 ≤ y) (h2 : y ≤ 9999) :
    listToNat (natReprChars y) = some y := by
  have hdig : natDigits y = [y / 1000, y / 100 % 10, y / 10 % 10, y % 10] :=
    natDigits_four y h1 h2
  have hlt : ∀ d ∈ natDigits y, d < 10 := by
    rw [hdig]
    intro d hd
    simp at hd
    omega
  rw [natReprChars, listToNat]
  have hne : ((natDigits y).map digitChar).isEmpty = false := by
    rw [hdig]
    rfl
  have hall : ((natDigits y).map digitChar).all Char.isDigit = true := by
    rw [List.all_eq_true]
    intro c hc
    rw [List.mem_map] at hc
    obtain ⟨d, hd, hcd⟩ := hc
    rw [← hcd]
    exact isDigit_digitChar d (hlt d hd)
  rw [hne, hall]
  simp only [Bool.false_eq_true, if_false, if_true]
  rw [foldl_digits (natDigits y) hlt 0, hdig]
  simp only [List.foldl_cons, List.foldl_nil, Option.some.injEq]
  have e1 : y / 10 / 10 = y / 100 := by rw [Nat.div_div_eq_div_mul]
  have e2 : y / 100 / 10 = y / 1000 := by rw [Nat.div_div_eq_div_mul]
  omega

/-! ### Python string primitives, modelled on character lists -/

/-- Python `str.strip()` whitespace test (ASCII subset). -/
def pyIsSpace (c : Char) : Bool :=
  c = ' ' || c = '\t' || c = '\n' || c = '\x0b' || c = '\x0c' || c = '\r'

/-- Python `str.upper()` on one character (ASCII subset). -/
def upperChar (c : Char) : Char :=
  if 97 ≤ c.toNat && c.toNat ≤ 122 then Char.ofNat (c.toNat - 32) else c

/-- Python `str.strip()`. -/
def pyStrip (l : List Char) : List Char :=
  ((l.dropWhile pyIsSpace).reverse.dropWhile pyIsSpace).reverse

/-- Python `str.upper()`. -/
def pyUpper (l : List Char) : List Char := l.map upperChar

theorem pyStrip_id (l : List Char) (h : ∀ c ∈ l, pyIsSpace c = false) :
    pyStrip l = l := by
  have h1 : l.dropWhile pyIsSpace = l := by
    cases l with
    | nil => rfl
    | cons c t => simp [List.dropWhile_cons, h c (by simp)]
  have h2 : l.reverse.dropWhile pyIsSpace = l.reverse := by
    cases hr : l.reverse with
    | nil => rfl
    | cons c t =>
        have : c ∈ l := by
          rw [← List.mem_reverse, hr]
          simp
        simp [List.dropWhile_cons, h c this]
  rw [pyStrip, h1, h2, List.reverse_reverse]

theorem pyUpper_id (l : List Char) (h : ∀ c ∈ l, upperChar c = c) :
    pyUpper l = l := by
  induction l with
  | nil => rfl
  | cons c t ih =>
      have hc := h c (by simp)
      have ht := ih (fun x hx => h x (by simp [hx]))
      simp only [pyUpper, List.map_cons, hc]
      simp only [pyUpper] at ht
      rw [ht]

/-- Python `str.split(sep)` for a single-character separator. -/
def splitOnChar (sep : Char) : List Char → List (List Char)
  | [] => [[]]
  | c :: rest =>
      let r := splitOnChar sep rest
      if c = sep then [] :: r
      else
        match r with
        | h :: t => (c :: h) :: t
        | [] => [[c]]

theorem splitOnChar_ne_nil (sep : Char) (l : List Char) : splitOnChar sep l ≠ [] := by
  cases l with
  | nil => simp [splitOnChar]
  | cons c rest =>
      simp only [splitOnChar]
      by_cases h : c = sep
      · simp [h]
      · cases hr : splitOnChar sep rest <;> simp [h, hr]

theorem splitOnChar_append (sep : Char) (l r : List Char)
    (h : ∀ c ∈ l, c ≠ sep) :
    splitOnChar sep (l ++ r)
      = match splitOnChar sep r with
        | h :: t => (l ++ h) :: t
        | [] => [l] := by
  induction l with
  | nil =>
      cases hr : splitOnChar sep r with
      | nil => exact absurd hr (splitOnChar_ne_nil sep r)
      | cons a t => simp [hr]
  | cons c t ih =>
      have hc : c ≠ sep := h c (by simp)
      have iht := ih (fun x hx => h x (by simp [hx]))
      cases hr : splitOnChar sep r with
      | nil => exact absurd hr (splitOnChar_ne_nil sep r)
      | cons a u =>
          rw [hr] at iht
          simp only [List.cons_append, splitOnChar, if_neg hc, List.append_eq, iht]

theorem splitOnChar_cons_sep (sep : Char) (r : List Char) :
    splitOnChar sep (sep :: r) = [] :: splitOnChar sep r := by
  simp [splitOnChar]

/-! ### Period resolver (`_parse_period`) and label formatter
(`_format_analysis_period`) -/

/-- ASCII apostrophe, built by code point to keep source lexing simple. -/
def apos : String := (Char.ofNat 39).toString

/-- Error message raised by `_parse_period` (its `ValueError` payload). -/
def invalidPeriodMessage (p : List Char) : String :=
  "Invalid period format: " ++ String.mk p
    ++ ". Use format: YYYYH1, YYYYH2, YYYYQ1-Q4, or YYYY (e.g., "
    ++ apos ++ "2025H2" ++ apos ++ ", " ++ apos ++ "2026Q1" ++ apos
    ++ ", " ++ apos ++ "2025" ++ apos ++ ")"

/-- Python `int(...)` of the four matched year digits. -/
def year4 (a b c d : Char) : Nat :=
  digitVal a * 1000 + digitVal b * 100 + digitVal c * 10 + digitVal d

/-- Body of `_parse_period` after `period_str.strip().upper()`: the three
`re.match` attempts (half-year, quarter, year) in source order.  The regex
alternatives are decided by the token length, its digit prefix and the
final one or two characters, exactly as `^(\d{4})H([12])$`,
`^(\d{4})Q([1-4])$` and `^(\d{4})$` do on the already-normalized token. -/
def parsePeriodCore (p : List Char) : Except String (String × String) :=
  match p with
  | [a, b, c, d, e, f] =>
      if a.isDigit && b.isDigit && c.isDigit && d.isDigit then
        let y := year4 a b c d
        if e = 'H' then
          if f = '1' then .ok (natReprStr y ++ "-01-01", natReprStr y ++ "-06-30")
          else if f = '2' then .ok (natReprStr y ++ "-07-01", natReprStr y ++ "-12-31")
          else .error (invalidPeriodMessage p)
        else if e = 'Q' then
          if f = '1' then .ok (natReprStr y ++ "-01-01", natReprStr y ++ "-03-31")
          else if f = '2' then .ok (natReprStr y ++ "-04-01", natReprStr y ++ "-06-30")
          else if f = '3' then .ok (natReprStr y ++ "-07-01", natReprStr y ++ "-09-30")
          else if f = '4' then .ok (natReprStr y ++ "-10-01", natReprStr y ++ "-12-31")
          else .error (invalidPeriodMessage p)
        else .error (invalidPeriodMessage p)
      else .error (invalidPeriodMessage p)
  | [a, b, c, d] =>
      if a.isDigit && b.isDigit && c.isDigit && d.isDigit then
        .ok (natReprStr (year4 a b c d) ++ "-01-01", natReprStr (year4 a b c d) ++ "-12-31")
      else .error (invalidPeriodMessage p)
  | _ => .error (invalidPeriodMessage p)

/-- The `_parse_period` function: normalize, then match. -/
def parsePeriod (period : String) : Except String (String × String) :=
  parsePeriodCore (pyUpper (pyStrip period.data))

/-- One of the seven accepted token shapes (YYYY, YYYYH1, YYYYH2,
YYYYQ1-YYYYQ4), as a predicate on the normalized token. -/
def shapeOK (l : List Char) : Bool :=
  match l with
  | [a, b, c, d] => a.isDigit && b.isDigit && c.isDigit && d.isDigit
  | [a, b, c, d, e, f] =>
      a.isDigit && b.isDigit && c.isDigit && d.isDigit &&
        ((e == 'H' && (f == '1' || f == '2')) ||
         (e == 'Q' && (f == '1' || f == '2' || f == '3' || f == '4')))
  | _ => false

/-- A calendar date as `datetime.strptime(s, "%Y-%m-%d")` yields it. -/
structure Date where
  year : Nat
  month : Nat
  day : Nat
deriving DecidableEq

def isLeap (y : Nat) : Bool := (y % 4 == 0 && y % 100 != 0) || y % 400 == 0

def daysInMonth (y m : Nat) : Nat :=
  if m = 2 then (if isLeap y then 29 else 28)
  else if m = 4 ∨ m = 6 ∨ m = 9 ∨ m = 11 then 30
  else 31

/-- Model of `datetime.strptime(s, "%Y-%m-%d")`: split on the dashes,
parse the decimal components and validate the calendar date; `none` is the
raised `ValueError`. -/
def dateParse (s : String) : Option Date :=
  match splitOnChar '-' s.data with
  | [ys, ms, ds] =>
      match listToNat ys, listToNat ms, listToNat ds with
      | some y, some m, some d =>
          if 1 ≤ y ∧ y ≤ 9999 ∧ 1 ≤ m ∧ m ≤ 12 ∧ 1 ≤ d ∧ d ≤ daysInMonth y m then
            some ⟨y, m, d⟩
          else none
      | _, _, _ => none
  | _ => none

/-- Body of `_format_analysis_period` once both dates are parsed: the
`period_patterns` dictionary lookup keyed on
`(start.month, start.day, end.month, end.day)` — the years are NOT part of
the key — with the `"start to end"` fallback, in source dict order. -/
def formatDates (sd ed : Date) (start_str end_str : String) : String :=
  if sd.month = 1 ∧ sd.day = 1 ∧ ed.month = 12 ∧ ed.day = 31 then
    natReprStr sd.year ++ " (January 1 - December 31, " ++ natReprStr sd.year ++ ")"
  else if sd.month = 7 ∧ sd.day = 1 ∧ ed.month = 12 ∧ ed.day = 31 then
    natReprStr sd.year ++ "H2 (July 1 - December 31, " ++ natReprStr sd.year ++ ")"
  else if sd.month = 1 ∧ sd.day = 1 ∧ ed.month = 6 ∧ ed.day = 30 then
    natReprStr sd.year ++ "H1 (January 1 - June 30, " ++ natReprStr sd.year ++ ")"
  else if sd.month = 1 ∧ sd.day = 1 ∧ ed.month = 3 ∧ ed.day = 31 then
    natReprStr sd.year ++ "Q1 (January 1 - March 31, " ++ natReprStr sd.year ++ ")"
  else if sd.month = 4 ∧ sd.day = 1 ∧ ed.month = 6 ∧ ed.day = 30 then
    natReprStr sd.year ++ "Q2 (April 1 - June 30, " ++ natReprStr sd.year ++ ")"
  else if sd.month = 7 ∧ sd.day = 1 ∧ ed.month = 9 ∧ ed.day = 30 then
    natReprStr sd.year ++ "Q3 (July 1 - September 30, " ++ natReprStr sd.year ++ ")"
  else if sd.month = 10 ∧ sd.day = 1 ∧ ed.month = 12 ∧ ed.day = 31 then
    natReprStr sd.year ++ "Q4 (October 1 - December 31, " ++ natReprStr sd.year ++ ")"
  else start_str ++ " to " ++ end_str

/-- The `_format_analysis_period` function.  `none` models the
`ValueError` `strptime` raises on an unparsable date string. -/
def formatAnalysisPeriod (start_date end_date : String) : Option String :=
  match dateParse start_date, dateParse end_date with
  | some s, some e => some (formatDates s e start_date end_date)
  | _, _ => none

/-- Modelled from the spec: the seven canonical `(start, end)` ranges of
§4.1 — full year, H1, H2, Q1-Q4 — all within a single year. -/
def specCanonicalPair (s e : Date) : Bool :=
  s.year == e.year &&
    ((s.month == 1 && s.day == 1 && e.month == 12 && e.day == 31) ||
     (s.month == 1 && s.day == 1 && e.month == 6 && e.day == 30) ||
     (s.month == 7 && s.day == 1 && e.month == 12 && e.day == 31) ||
     (s.month == 1 && s.day == 1 && e.month == 3 && e.day == 31) ||
     (s.month == 4 && s.day == 1 && e.month == 6 && e.day == 30) ||
     (s.month == 7 && s.day == 1 && e.month == 9 && e.day == 30) ||
     (s.month == 10 && s.day == 1 && e.month == 12 && e.day == 31))

/-- The month/day tuple key actually used by the source's
`period_patterns` dictionary. -/
def periodPatternHit (sm sd em ed : Nat) : Bool :=
  (sm == 1 && sd == 1 && em == 12 && ed == 31) ||
  (sm == 7 && sd == 1 && em == 12 && ed == 31) ||
  (sm == 1 && sd == 1 && em == 6 && ed == 30) ||
  (sm == 1 && sd == 1 && em == 3 && ed == 31) ||
  (sm == 4 && sd == 1 && em == 6 && ed == 30) ||
  (sm == 7 && sd == 1 && em == 9 && ed == 30) ||
  (sm == 10 && sd == 1 && em == 12 && ed == 31)

theorem formatDates_fallback (sd ed : Date) (a b : String)
    (h : periodPatternHit sd.month sd.day ed.month ed.day = false) :
    formatDates sd ed a b = a ++ " to " ++ b := by
  simp only [periodPatternHit, Bool.or_eq_false_iff] at h
  obtain ⟨⟨⟨⟨⟨⟨p1, p2⟩, p3⟩, p4⟩, p5⟩, p6⟩, p7⟩ := h
  have q1 : ¬ (sd.month = 1 ∧ sd.day = 1 ∧ ed.month = 12 ∧ ed.day = 31) := by
    intro hh
    simp [hh.1, hh.2.1, hh.2.2.1, hh.2.2.2] at p1
  have q2 : ¬ (sd.month = 7 ∧ sd.day = 1 ∧ ed.month = 12 ∧ ed.day = 31) := by
    intro hh
    simp [hh.1, hh.2.1, hh.2.2.1, hh.2.2.2] at p2
  have q3 : ¬ (sd.month = 1 ∧ sd.day = 1 ∧ ed.month = 6 ∧ ed.day = 30) := by
    intro hh
    simp [hh.1, hh.2.1, hh.2.2.1, hh.2.2.2] at p3
  have q4 : ¬ (sd.month = 1 ∧ sd.day = 1 ∧ ed.month = 3 ∧ ed.day = 31) := by
    intro hh
    simp [hh.1, hh.2.1, hh.2.2.1, hh.2.2.2] at p4
  have q5 : ¬ (sd.month = 4 ∧ sd.day = 1 ∧ ed.month = 6 ∧ ed.day = 30) := by
    intro hh
    simp [hh.1, hh.2.1, hh.2.2.1, hh.2.2.2] at p5
  have q6 : ¬ (sd.month = 7 ∧ sd.day = 1 ∧ ed.month = 9 ∧ ed.day = 30) := by
    intro hh
    simp [hh.1, hh.2.1, hh.2.2.1, hh.2.2.2] at p6
  have q7 : ¬ (sd.month = 10 ∧ sd.day = 1 ∧ ed.month = 12 ∧ ed.day = 31) := by
    intro hh
    simp [hh.1, hh.2.1, hh.2.2.1, hh.2.2.2] at p7
  simp only [formatDates, if_neg q1, if_neg q2, if_neg q3, if_neg q4, if_neg q5,
    if_neg q6, if_neg q7]

/-! ### Round-trip lemmas for the seven canonical shapes -/

theorem pyIsSpace_digitChar (k : Nat) (h : k < 10) : pyIsSpace (digitChar k) = false := by
  interval_cases k <;> decide

theorem upperChar_digitChar (k : Nat) (h : k < 10) : upperChar (digitChar k) = digitChar k := by
  interval_cases k <;> decide

theorem digitChar_ne_dash (k : Nat) (h : k < 10) : digitChar k ≠ '-' := by
  interval_cases k <;> decide

theorem natReprChars_spell (y : Nat) (h1 : 1000 ≤ y) (h2 : y ≤ 9999) :
    natReprChars y = [digitChar (y / 1000), digitChar (y / 100 % 10),
      digitChar (y / 10 % 10), digitChar (y % 10)] := by
  rw [natReprChars, natDigits_four y h1 h2]
  rfl

theorem natReprChars_props (y : Nat) (h1 : 1000 ≤ y) (h2 : y ≤ 9999) :
    ∀ c ∈ natReprChars y, pyIsSpace c = false ∧ upperChar c = c ∧ c ≠ '-' := by
  rw [natReprChars_spell y h1 h2]
  intro c hc
  simp only [List.mem_cons, List.not_mem_nil, or_false] at hc
  rcases hc with h | h | h | h <;>
    (subst h
     exact ⟨pyIsSpace_digitChar _ (by omega), upperChar_digitChar _ (by omega),
       digitChar_ne_dash _ (by omega)⟩)

theorem token_normalized (y : Nat) (h1 : 1000 ≤ y) (h2 : y ≤ 9999) (rest : List Char)
    (hs : ∀ c ∈ rest, pyIsSpace c = false) (hu : ∀ c ∈ rest, upperChar c = c) :
    pyUpper (pyStrip (natReprChars y ++ rest)) = natReprChars y ++ rest := by
  have hmem : ∀ c ∈ natReprChars y ++ rest, pyIsSpace c = false ∧ upperChar c = c := by
    intro c hc
    rcases List.mem_append.mp hc with h | h
    · exact ⟨(natReprChars_props y h1 h2 c h).1, (natReprChars_props y h1 h2 c h).2.1⟩
    · exact ⟨hs c h, hu c h⟩
  rw [pyStrip_id _ (fun c hc => (hmem c hc).1), pyUpper_id _ (fun c hc => (hmem c hc).2)]

theorem year4_digits (y : Nat) (h1 : 1000 ≤ y) (h2 : y ≤ 9999) :
    year4 (digitChar (y / 1000)) (digitChar (y / 100 % 10))
      (digitChar (y / 10 % 10)) (digitChar (y % 10)) = y := by
  rw [year4, digitVal_digitChar _ (by omega), digitVal_digitChar _ (by omega),
    digitVal_digitChar _ (by omega), digitVal_digitChar _ (by omega)]
  have e1 : y / 10 / 10 = y / 100 := by rw [Nat.div_div_eq_div_mul]
  have e2 : y / 100 / 10 = y / 1000 := by rw [Nat.div_div_eq_div_mul]
  omega

theorem digits_test (y : Nat) (h1 : 1000 ≤ y) (h2 : y ≤ 9999) :
    ((digitChar (y / 1000)).isDigit && (digitChar (y / 100 % 10)).isDigit &&
      (digitChar (y / 10 % 10)).isDigit && (digitChar (y % 10)).isDigit) = true := by
  rw [isDigit_digitChar _ (by omega), isDigit_digitChar _ (by omega),
    isDigit_digitChar _ (by omega), isDigit_digitChar _ (by omega)]
  rfl

theorem dateParse_mk (y : Nat) (h1 : 1000 ≤ y) (h2 : y ≤ 9999) (rest mcs dcs : List Char)
    (m d : Nat) (hm1 : 1 ≤ m) (hm12 : m ≤ 12) (hd1 : 1 ≤ d) (hdm : d ≤ daysInMonth y m)
    (hsplit : splitOnChar '-' rest = [mcs, dcs])
    (hmc : listToNat mcs = some m) (hdc : listToNat dcs = some d) :
    dateParse (String.mk (natReprChars y ++ '-' :: rest)) = some ⟨y, m, d⟩ := by
  have hnodash : ∀ c ∈ natReprChars y, c ≠ '-' :=
    fun c hc => (natReprChars_props y h1 h2 c hc).2.2
  rw [dateParse,
    show (String.mk (natReprChars y ++ '-' :: rest)).data = natReprChars y ++ '-' :: rest
      from rfl,
    splitOnChar_append '-' (natReprChars y) ('-' :: rest) hnodash,
    splitOnChar_cons_sep, hsplit]
  simp only [List.append_nil]
  rw [listToNat_natReprChars_four y h1 h2, hmc, hdc]
  exact if_pos ⟨by omega, by omega, hm1, hm12, hd1, hdm⟩

theorem roundtrip_year (y : Nat) (h1 : 1000 ≤ y) (h2 : y ≤ 9999) :
    parsePeriod (String.mk (natReprChars y))
        = .ok (natReprStr y ++ "-01-01", natReprStr y ++ "-12-31")
      ∧ formatAnalysisPeriod (natReprStr y ++ "-01-01") (natReprStr y ++ "-12-31")
        = some (natReprStr y ++ " (January 1 - December 31, " ++ natReprStr y ++ ")") := by
  constructor
  · have hnorm : pyUpper (pyStrip (natReprChars y ++ [])) = natReprChars y ++ [] :=
      token_normalized y h1 h2 [] (by simp) (by simp)
    rw [parsePeriod,
      show (String.mk (natReprChars y)).data = natReprChars y ++ [] by simp,
      hnorm, List.append_nil, natReprChars_spell y h1 h2]
    simp only [parsePeriodCore]
    rw [if_pos (digits_test y h1 h2), year4_digits y h1 h2]
  · have hps : dateParse (natReprStr y ++ "-01-01") = some ⟨y, 1, 1⟩ :=
      dateParse_mk y h1 h2 "01-01".data ['0','1'] ['0','1'] 1 1
        (by norm_num) (by norm_num) (by norm_num) (by norm_num [daysInMonth])
        (by decide) (by decide) (by decide)
    have hpe : dateParse (natReprStr y ++ "-12-31") = some ⟨y, 12, 31⟩ :=
      dateParse_mk y h1 h2 "12-31".data ['1','2'] ['3','1'] 12 31
        (by norm_num) (by norm_num) (by norm_num) (by norm_num [daysInMonth])
        (by decide) (by decide) (by decide)
    rw [formatAnalysisPeriod, hps, hpe]
    simp [formatDates]

theorem roundtrip_H1 (y : Nat) (h1 : 1000 ≤ y) (h2 : y ≤ 9999) :
    parsePeriod (String.mk (natReprChars y ++ ['H', '1']))
        = .ok (natReprStr y ++ "-01-01", natReprStr y ++ "-06-30")
      ∧ formatAnalysisPeriod (natReprStr y ++ "-01-01") (natReprStr y ++ "-06-30")
        = some (natReprStr y ++ "H1 (January 1 - June 30, " ++ natReprStr y ++ ")") := by
  constructor
  · have hnorm : pyUpper (pyStrip (natReprChars y ++ ['H', '1']))
        = natReprChars y ++ ['H', '1'] :=
      token_normalized y h1 h2 ['H', '1'] (by decide) (by decide)
    rw [parsePeriod,
      show (String.mk (natReprChars y ++ ['H', '1'])).data = natReprChars y ++ ['H', '1']
        from rfl,
      hnorm, natReprChars_spell y h1 h2]
    simp only [List.cons_append, List.nil_append, parsePeriodCore]
    rw [if_pos (digits_test y h1 h2)]
    simp only [if_true]
    rw [year4_digits y h1 h2]
  · have hps : dateParse (natReprStr y ++ "-01-01") = some ⟨y, 1, 1⟩ :=
      dateParse_mk y h1 h2 "01-01".data ['0','1'] ['0','1'] 1 1
        (by norm_num) (by norm_num) (by norm_num) (by norm_num [daysInMonth])
        (by decide) (by decide) (by decide)
    have hpe : dateParse (natReprStr y ++ "-06-30") = some ⟨y, 6, 30⟩ :=
      dateParse_mk y h1 h2 "06-30".data ['0','6'] ['3','0'] 6 30
        (by norm_num) (by norm_num) (by norm_num) (by norm_num [daysInMonth])
        (by decide) (by decide) (by decide)
    rw [formatAnalysisPeriod, hps, hpe]
    simp [formatDates]

theorem roundtrip_H2 (y : Nat) (h1 : 1000 ≤ y) (h2 : y ≤ 9999) :
    parsePeriod (String.mk (natReprChars y ++ ['H', '2']))
        = .ok (natReprStr y ++ "-07-01", natReprStr y ++ "-12-31")
      ∧ formatAnalysisPeriod (natReprStr y ++ "-07-01") (natReprStr y ++ "-12-31")
        = some (natReprStr y ++ "H2 (July 1 - December 31, " ++ natReprStr y ++ ")") := by
  constructor
  · have hnorm : pyUpper (pyStrip (natReprChars y ++ ['H', '2']))
        = natReprChars y ++ ['H', '2'] :=
      token_normalized y h1 h2 ['H', '2'] (by decide) (by decide)
    rw [parsePeriod,
      show (String.mk (natReprChars y ++ ['H', '2'])).data = natReprChars y ++ ['H', '2']
        from rfl,
      hnorm, natReprChars_spell y h1 h2]
    simp only [List.cons_append, List.nil_append, parsePeriodCore]
    rw [if_pos (digits_test y h1 h2)]
    simp only [if_true, if_neg (show ('2' : Char) ≠ '1' by decide)]
    rw [year4_digits y h1 h2]
  · have hps : dateParse (natReprStr y ++ "-07-01") = some ⟨y, 7, 1⟩ :=
      dateParse_mk y h1 h2 "07-01".data ['0','7'] ['0','1'] 7 1
        (by norm_num) (by norm_num) (by norm_num) (by norm_num [daysInMonth])
        (by decide) (by decide) (by decide)
    have hpe : dateParse (natReprStr y ++ "-12-31") = some ⟨y, 12, 31⟩ :=
      dateParse_mk y h1 h2 "12-31".data ['1','2'] ['3','1'] 12 31
        (by norm_num) (by norm_num) (by norm_num) (by norm_num [daysInMonth])
        (by decide) (by decide) (by decide)
    rw [formatAnalysisPeriod, hps, hpe]
    simp [formatDates]

theorem roundtrip_Q1 (y : Nat) (h1 : 1000 ≤ y) (h2 : y ≤ 9999) :
    parsePeriod (String.mk (natReprChars y ++ ['Q', '1']))
        = .ok (natReprStr y ++ "-01-01", natReprStr y ++ "-03-31")
      ∧ formatAnalysisPeriod (natReprStr y ++ "-01-01") (natReprStr y ++ "-03-31")
        = some (natReprStr y ++ "Q1 (January 1 - March 31, " ++ natReprStr y ++ ")") := by
  constructor
  · have hnorm : pyUpper (pyStrip (natReprChars y ++ ['Q', '1']))
        = natReprChars y ++ ['Q', '1'] :=
      token_normalized y h1 h2 ['Q', '1'] (by decide) (by decide)
    rw [parsePeriod,
      show (String.mk (natReprChars y ++ ['Q', '1'])).data = natReprChars y ++ ['Q', '1']
        from rfl,
      hnorm, natReprChars_spell y h1 h2]
    simp only [List.cons_append, List.nil_append, parsePeriodCore]
    rw [if_pos (digits_test y h1 h2)]
    simp only [if_true, if_neg (show ('Q' : Char) ≠ 'H' by decide)]
    rw [year4_digits y h1 h2]
  · have hps : dateParse (natReprStr y ++ "-01-01") = some ⟨y, 1, 1⟩ :=
      dateParse_mk y h1 h2 "01-01".data ['0','1'] ['0','1'] 1 1
        (by norm_num) (by norm_num) (by norm_num) (by norm_num [daysInMonth])
        (by decide) (by decide) (by decide)
    have hpe : dateParse (natReprStr y ++ "-03-31") = some ⟨y, 3, 31⟩ :=
      dateParse_mk y h1 h2 "03-31".data ['0','3'] ['3','1'] 3 31
        (by norm_num) (by norm_num) (by norm_num) (by norm_num [daysInMonth])
        (by decide) (by decide) (by decide)
    rw [formatAnalysisPeriod, hps, hpe]
    simp [formatDates]

theorem roundtrip_Q2 (y : Nat) (h1 : 1000 ≤ y) (h2 : y ≤ 9999) :
    parsePeriod (String.mk (natReprChars y ++ ['Q', '2']))
        = .ok (natReprStr y ++ "-04-01", natReprStr y ++ "-06-30")
      ∧ formatAnalysisPeriod (natReprStr y ++ "-04-01") (natReprStr y ++ "-06-30")
        = some (natReprStr y ++ "Q2 (April 1 - June 30, " ++ natReprStr y ++ ")") := by
  constructor
  · have hnorm : pyUpper (pyStrip (natReprChars y ++ ['Q', '2']))
        = natReprChars y ++ ['Q', '2'] :=
      token_normalized y h1 h2 ['Q', '2'] (by decide) (by decide)
    rw [parsePeriod,
      show (String.mk (natReprChars y ++ ['Q', '2'])).data = natReprChars y ++ ['Q', '2']
        from rfl,
      hnorm, natReprChars_spell y h1 h2]
    simp only [List.cons_append, List.nil_append, parsePeriodCore]
    rw [if_pos (digits_test y h1 h2)]
    simp only [if_true, if_neg (show ('Q' : Char) ≠ 'H' by decide),
      if_neg (show ('2' : Char) ≠ '1' by decide)]
    rw [year4_digits y h1 h2]
  · have hps : dateParse (natReprStr y ++ "-04-01") = some ⟨y, 4, 1⟩ :=
      dateParse_mk y h1 h2 "04-01".data ['0','4'] ['0','1'] 4 1
        (by norm_num) (by norm_num) (by norm_num) (by norm_num [daysInMonth])
        (by decide) (by decide) (by decide)
    have hpe : dateParse (natReprStr y ++ "-06-30") = some ⟨y, 6, 30⟩ :=
      dateParse_mk y h1 h2 "06-30".data ['0','6'] ['3','0'] 6 30
        (by norm_num) (by norm_num) (by norm_num) (by norm_num [daysInMonth])
        (by decide) (by decide) (by decide)
    rw [formatAnalysisPeriod, hps, hpe]
    simp [formatDates]

theorem roundtrip_Q3 (y : Nat) (h1 : 1000 ≤ y) (h2 : y ≤ 9999) :
    parsePeriod (String.mk (natReprChars y ++ ['Q', '3']))
        = .ok (natReprStr y ++ "-07-01", natReprStr y ++ "-09-30")
      ∧ formatAnalysisPeriod (natReprStr y ++ "-07-01") (natReprStr y ++ "-09-30")
        = some (natReprStr y ++ "Q3 (July 1 - September 30, " ++ natReprStr y ++ ")") := by
  constructor
  · have hnorm : pyUpper (pyStrip (natReprChars y ++ ['Q', '3']))
        = natReprChars y ++ ['Q', '3'] :=
      token_normalized y h1 h2 ['Q', '3'] (by decide) (by decide)
    rw [parsePeriod,
      show (String.mk (natReprChars y ++ ['Q', '3'])).data = natReprChars y ++ ['Q', '3']
        from rfl,
      hnorm, natReprChars_spell y h1 h2]
    simp only [List.cons_append, List.nil_append, parsePeriodCore]
    rw [if_pos (digits_test y h1 h2)]
    simp only [if_true, if_neg (show ('Q' : Char) ≠ 'H' by decide),
      if_neg (show ('3' : Char) ≠ '1' by decide),
      if_neg (show ('3' : Char) ≠ '2' by decide)]
    rw [year4_digits y h1 h2]
  · have hps : dateParse (natReprStr y ++ "-07-01") = some ⟨y, 7, 1⟩ :=
      dateParse_mk y h1 h2 "07-01".data ['0','7'] ['0','1'] 7 1
        (by norm_num) (by norm_num) (by norm_num) (by norm_num [daysInMonth])
        (by decide) (by decide) (by decide)
    have hpe : dateParse (natReprStr y ++ "-09-30") = some ⟨y, 9, 30⟩ :=
      dateParse_mk y h1 h2 "09-30".data ['0','9'] ['3','0'] 9 30
        (by norm_num) (by norm_num) (by norm_num) (by norm_num [daysInMonth])
        (by decide) (by decide) (by decide)
    rw [formatAnalysisPeriod, hps, hpe]
    simp [formatDates]

theorem roundtrip_Q4 (y : Nat) (h1 : 1000 ≤ y) (h2 : y ≤ 9999) :
    parsePeriod (String.mk (natReprChars y ++ ['Q', '4']))
        = .ok (natReprStr y ++ "-10-01", natReprStr y ++ "-12-31")
      ∧ formatAnalysisPeriod (natReprStr y ++ "-10-01") (natReprStr y ++ "-12-31")
        = some (natReprStr y ++ "Q4 (October 1 - December 31, " ++ natReprStr y ++ ")") := by
  constructor
  · have hnorm : pyUpper (pyStrip (natReprChars y ++ ['Q', '4']))
        = natReprChars y ++ ['Q', '4'] :=
      token_normalized y h1 h2 ['Q', '4'] (by decide) (by decide)
    rw [parsePeriod,
      show (String.mk (natReprChars y ++ ['Q', '4'])).data = natReprChars y ++ ['Q', '4']
        from rfl,
      hnorm, natReprChars_spell y h1 h2]
    simp only [List.cons_append, List.nil_append, parsePeriodCore]
    rw [if_pos (digits_test y h1 h2)]
    simp only [if_true, if_neg (show ('Q' : Char) ≠ 'H' by decide),
      if_neg (show ('4' : Char) ≠ '1' by decide),
      if_neg (show ('4' : Char) ≠ '2' by decide),
      if_neg (show ('4' : Char) ≠ '3' by decide)]
    rw [year4_digits y h1 h2]
  · have hps : dateParse (natReprStr y ++ "-10-01") = some ⟨y, 10, 1⟩ :=
      dateParse_mk y h1 h2 "10-01".data ['1','0'] ['0','1'] 10 1
        (by norm_num) (by norm_num) (by norm_num) (by norm_num [daysInMonth])
        (by decide) (by decide) (by decide)
    have hpe : dateParse (natReprStr y ++ "-12-31") = some ⟨y, 12, 31⟩ :=
      dateParse_mk y h1 h2 "12-31".data ['1','2'] ['3','1'] 12 31
        (by norm_num) (by norm_num) (by norm_num) (by norm_num [daysInMonth])
        (by decide) (by decide) (by decide)
    rw [formatAnalysisPeriod, hps, hpe]
    simp [formatDates]

theorem parsePeriodCore_err (p : List Char) :
    ((∃ msg, parsePeriodCore p = .error msg) ↔ shapeOK p = false)
    ∧ (∀ msg, parsePeriodCore p = .error msg → msg = invalidPeriodMessage p) := by
  rcases p with _ | ⟨a, _ | ⟨b, _ | ⟨c, _ | ⟨d, _ | ⟨e, _ | ⟨f, _ | ⟨g, t⟩⟩⟩⟩⟩⟩⟩
  · simp [parsePeriodCore, shapeOK]
  · simp [parsePeriodCore, shapeOK]
  · simp [parsePeriodCore, shapeOK]
  · simp [parsePeriodCore, shapeOK]
  · by_cases hd : (a.isDigit && b.isDigit && c.isDigit && d.isDigit) = true
    · simp [parsePeriodCore, shapeOK, hd]
    · simp [parsePeriodCore, shapeOK, hd]
  · simp [parsePeriodCore, shapeOK]
  · by_cases hd : (a.isDigit && b.isDigit && c.isDigit && d.isDigit) = true
    · by_cases he : e = 'H'
      · subst he
        by_cases hf1 : f = '1'
        · subst hf1
          simp [parsePeriodCore, shapeOK, hd]
        · by_cases hf2 : f = '2'
          · subst hf2
            simp [parsePeriodCore, shapeOK, hd]
          · simp [parsePeriodCore, shapeOK, hd, hf1, hf2]
      · by_cases hq : e = 'Q'
        · subst hq
          by_cases hf1 : f = '1'
          · subst hf1
            simp [parsePeriodCore, shapeOK, hd]
          · by_cases hf2 : f = '2'
            · subst hf2
              simp [parsePeriodCore, shapeOK, hd]
            · by_cases hf3 : f = '3'
              · subst hf3
                simp [parsePeriodCore, shapeOK, hd]
              · by_cases hf4 : f = '4'
                · subst hf4
                  simp [parsePeriodCore, shapeOK, hd]
                · simp [parsePeriodCore, shapeOK, hd, hf1, hf2, hf3, hf4]
        · simp [parsePeriodCore, shapeOK, hd, he, hq]
    · simp [parsePeriodCore, shapeOK, hd]
  · simp [parsePeriodCore, shapeOK]

/-! ### Data model for the `fetch_jira_data` aggregation core

Issue records arrive as free-form JSON dictionaries; the typed record
below keeps exactly the fields the aggregation reads, with `Option` for
the fields the source defaults.  `status`, `issuetype` and `summary` are
the nested `.get(..., {}).get("name", "")`-style lookups already
flattened (absent nesting yields `""`).  A present `parent` field stands
for a parent dict carrying that `key` (the source's falsy checks on the
extracted key are preserved through the empty string). -/

/-- A `datetime` value; CPython compares these lexicographically by
component. -/
structure DateTime where
  year : Int
  month : Int
  day : Int
  hour : Int
  minute : Int
  second : Int
deriving DecidableEq

/-- Lexicographic `<=` on `datetime` values. -/
def dtLe (a b : DateTime) : Bool :=
  if a.year ≠ b.year then decide (a.year < b.year)
  else if a.month ≠ b.month then decide (a.month < b.month)
  else if a.day ≠ b.day then decide (a.day < b.day)
  else if a.hour ≠ b.hour then decide (a.hour < b.hour)
  else if a.minute ≠ b.minute then decide (a.minute < b.minute)
  else decide (a.second ≤ b.second)

/-- One element of an issue's `customfield_10020` sprint list.  Date
strings are modelled already parsed (`_parse_jira_date` is the library
boundary); `none` covers both an absent and a null/empty value. -/
structure SprintEntry where
  id : Option Int
  name : Option String
  state : Option String
  startDate : Option DateTime
  endDate : Option DateTime
  completeDate : Option DateTime
deriving DecidableEq

structure Issue where
  key : String
  status : String
  issuetype : String
  summary : String
  storyPoints : Option Int
  timespent : Option Int
  timeoriginalestimate : Option Int
  parent : Option String
  sprints : List SprintEntry
deriving DecidableEq

/-- `int(story_points) if story_points else 0`. -/
def storyPointsVal (i : Issue) : Int := i.storyPoints.getD 0

/-- `fields.get("timespent", 0) or 0`. -/
def timeSpentVal (i : Issue) : Int := i.timespent.getD 0

/-- `fields.get("timeoriginalestimate", 0) or 0`. -/
def timeEstimateVal (i : Issue) : Int := i.timeoriginalestimate.getD 0

/-- `status_name in ["done", "closed", "resolved"]` on the lower-cased
status name. -/
def isCompleted (i : Issue) : Bool :=
  i.status.toLower == "done" || i.status.toLower == "closed"
    || i.status.toLower == "resolved"

/-- The epic classification repeated in the source's rollup loop and both
sprint-allocation loops: parent key when a parent is present, else the
issue's own key when its type is "epic", else falsy; a falsy result
(modelled by `""`) gets the given sentinel (`"_no_epic"` in the rollup,
`"Uncategorized"` in the sprint loops). -/
def classify (sentinel : String) (i : Issue) : String :=
  let k := match i.parent with
    | some p => p
    | none => if i.issuetype.toLower == "epic" then i.key else ""
  if k == "" then sentinel else k

/-- Python truthiness filter `if sprint_id:` on the sprint field's id. -/
def activeId (e : SprintEntry) : Option Int :=
  match e.id with
  | some i => if i == 0 then none else some i
  | none => none

/-- The `(issue, sprint entry)` stream walked by the nested
`for issue in issues: for sprint_info in sprints_field:` loop, restricted
to entries with a truthy id.  The loop's two dict updates are independent,
so `sprintMap` and `issueSprintMap` are each a fold over this stream. -/
def activeSprintRefs (issues : List Issue) : List (String × Int × SprintEntry) :=
  issues.flatMap (fun i => i.sprints.filterMap (fun e =>
    match activeId e with
    | some sid => some (i.key, sid, e)
    | none => none))

def intReprStr (n : Int) : String :=
  if n < 0 then "-" ++ natReprStr n.natAbs else natReprStr n.natAbs

/-- The dict stored into `sprint_map[sprint_id]`. -/
structure SprintInfo where
  id : Int
  name : String
  state : String
  startDate : Option DateTime
  endDate : Option DateTime
  completeDate : Option DateTime
deriving DecidableEq

def mkSprintInfo (sid : Int) (e : SprintEntry) : SprintInfo :=
  { id := sid
    name := e.name.getD ("Sprint " ++ intReprStr sid)
    state := e.state.getD ""
    startDate := e.startDate
    endDate := e.endDate
    completeDate := e.completeDate }

/-- `sprint_map`: sprint id → last-seen sprint metadata. -/
def sprintMap (issues : List Issue) : List (Int × SprintInfo) :=
  (activeSprintRefs issues).foldl
    (fun d r => alUpdate d r.2.1 (fun _ => mkSprintInfo r.2.1 r.2.2)) []

/-- `issue_sprint_map`: issue key → list of referenced sprint ids (in
reference order, duplicates retained). -/
def issueSprintMap (issues : List Issue) : List (String × List Int) :=
  (activeSprintRefs issues).foldl
    (fun d r => alUpdate d r.1 (fun o => o.getD [] ++ [r.2.1])) []

/-- An issue references a sprint id through its sprint field (with the
truthiness filter applied). -/
def references (i : Issue) (sid : Int) : Bool :=
  i.sprints.any (fun e => activeId e == some sid)

/-- Date-presence plus overlap test of the sprint filter:
`sprint_start and sprint_end` then
`sprint_start_dt <= end_dt and sprint_end_dt >= start_dt`. -/
def hasDatesOverlapping (s : SprintInfo) (startDt endDt : DateTime) : Bool :=
  match s.startDate, s.endDate with
  | some sd, some ed => dtLe sd endDt && dtLe startDt ed
  | _, _ => false

/-- `filtered_sprints`. -/
def filteredSprints (issues : List Issue) (startDt endDt : DateTime) : List SprintInfo :=
  (alValues (sprintMap issues)).filter (fun s => hasDatesOverlapping s startDt endDt)

/-- `user_sprint_issues` for a sprint id, with the membership map as an
explicit parameter. -/
def memberIssuesWith (m : List (String × List Int)) (issues : List Issue) (sid : Int) :
    List Issue :=
  issues.filter (fun i =>
    match alGet m i.key with
    | some l => l.contains sid
    | none => false)

def memberIssues (issues : List Issue) (sid : Int) : List Issue :=
  memberIssuesWith (issueSprintMap issues) issues sid

/-! Per-sprint accumulators of the metrics loop, one definition per
accumulated variable. -/

def totalEstimate (l : List Issue) : Int := (l.map timeEstimateVal).sum

def totalSpent (l : List Issue) : Int := (l.map timeSpentVal).sum

def completedCount (l : List Issue) : Nat := (l.filter isCompleted).length

def completedPoints (l : List Issue) : Int :=
  ((l.filter isCompleted).map storyPointsVal).sum

def totalSprintPoints (l : List Issue) : Int := (l.map storyPointsVal).sum

/-- `epic_allocation`: epic key → accumulated story points. -/
def epicAllocPoints (l : List Issue) : List (String × Int) :=
  l.foldl (fun d i =>
    alUpdate d (classify "Uncategorized" i) (fun o => o.getD 0 + storyPointsVal i)) []

/-- `epic_allocation_by_count` of the zero-point fallback branch. -/
def epicCountByKey (l : List Issue) : List (String × Int) :=
  l.foldl (fun d i =>
    alUpdate d (classify "Uncategorized" i) (fun o => o.getD 0 + 1)) []

/-- `epic_percentages`, with Python floats as exact rationals. -/
def epicPercentages (l : List Issue) : List (String × ℚ) :=
  if totalSprintPoints l > 0 then
    (epicAllocPoints l).map (fun e => (e.1, (e.2 : ℚ) / (totalSprintPoints l : ℚ) * 100))
  else
    if l.length > 0 then
      (epicCountByKey l).map (fun e => (e.1, (e.2 : ℚ) / (l.length : ℚ) * 100))
    else []

/-- `accomplishments`: `(key, summary, type)` of completed members,
in member order. -/
def accomplishmentsOf (l : List Issue) : List (String × String × String) :=
  (l.filter isCompleted).map (fun i => (i.key, i.summary, i.issuetype))

/-- `all_issues`: `(key, summary, status)` of all members, in order. -/
def allIssuesOf (l : List Issue) : List (String × String × String) :=
  l.map (fun i => (i.key, i.summary, i.status))

/-- `completed_issues / len(user_sprint_issues) * 100 if user_sprint_issues
else 0`. -/
def completionRate (l : List Issue) : ℚ :=
  if l.isEmpty then 0 else (completedCount l : ℚ) / (l.length : ℚ) * 100

structure SprintMetrics where
  sprint_id : Int
  name : String
  start_date : Option DateTime
  end_date : Option DateTime
  total_issues : Nat
  completed_issues : Nat
  completion_rate : ℚ
  total_estimate : Int
  total_spent : Int
  velocity : Int
  completed_points : Int
  accomplishments : List (String × String × String)
  epic_allocation : List (String × ℚ)
  all_issues : List (String × String × String)
deriving DecidableEq

/-- The dict stored into `sprint_metrics[sprint_name]`. -/
def mkSprintMetrics (s : SprintInfo) (l : List Issue) : SprintMetrics :=
  { sprint_id := s.id
    name := s.name
    start_date := s.startDate
    end_date := s.endDate
    total_issues := l.length
    completed_issues := completedCount l
    completion_rate := completionRate l
    total_estimate := totalEstimate l
    total_spent := totalSpent l
    velocity := completedPoints l
    completed_points := completedPoints l
    accomplishments := accomplishmentsOf l
    epic_allocation := epicPercentages l
    all_issues := allIssuesOf l }

/-- The sprints that actually produce a `sprint_metrics` entry: the
filtered sprints minus the `continue`-skipped ones with no member
issues. -/
def selectedSprints (issues : List Issue) (startDt endDt : DateTime) : List SprintInfo :=
  (filteredSprints issues startDt endDt).filter
    (fun s => !(memberIssues issues s.id).isEmpty)

/-- `sprint_metrics`: sprint NAME → metrics dict. -/
def sprintMetricsMap (issues : List Issue) (startDt endDt : DateTime) :
    List (String × SprintMetrics) :=
  (selectedSprints issues startDt endDt).foldl
    (fun d s => alUpdate d s.name (fun _ => mkSprintMetrics s (memberIssues issues s.id))) []

/-- One value of the `epics` rollup dict. -/
structure EpicBucket where
  key : String
  name : String
  issues : List Issue
  total_time_spent : Int
  total_time_estimate : Int
deriving DecidableEq

/-- The accumulation step of the rollup loop: append the issue and add its
time fields. -/
def bucketPush (b : EpicBucket) (i : Issue) : EpicBucket :=
  { b with
      issues := b.issues ++ [i]
      total_time_spent := b.total_time_spent + timeSpentVal i
      total_time_estimate := b.total_time_estimate + timeEstimateVal i }

/-- The bucket created on first sight of an epic key
(`if epic_key not in epics: epics[epic_key] = {...}`).  The `"_no_epic"`
sentinel bucket is labeled `"Uncategorized"`; a real key gets the fetched
epic name, defaulting to the key itself. -/
def newBucket (en : List (String × String)) (k : String) : EpicBucket :=
  { key := k
    name := if k == "_no_epic" then "Uncategorized" else (alGet en k).getD k
    issues := []
    total_time_spent := 0
    total_time_estimate := 0 }

/-- The `epics` rollup: walks the ENTIRE person-scoped issue list — no
sprint or period parameter exists — creating a bucket on first sight of an
epic key and accumulating the issue plus its time fields.  `epicNames` is
the externally fetched name registry. -/
def epicsRollup (epicNames : List (String × String)) (issues : List Issue) :
    List (String × EpicBucket) :=
  issues.foldl (fun d i =>
    alUpdate d (classify "_no_epic" i) (fun o =>
      bucketPush (o.getD (newBucket epicNames (classify "_no_epic" i))) i)) []

/-! ### Characterizations of the aggregation structures -/

theorem alKeys_foldl_nodup {α κ β : Type} [DecidableEq κ] (key : α → κ)
    (upd : α → Option β → β) (l : List α) (d : List (κ × β)) (h : (alKeys d).Nodup) :
    (alKeys (l.foldl (fun d x => alUpdate d (key x) (upd x)) d)).Nodup := by
  induction l generalizing d with
  | nil => exact h
  | cons x t ih => exact ih _ (alKeys_nodup_alUpdate _ _ _ h)

theorem alGet_none_of_not_mem {κ β : Type} [DecidableEq κ] (d : List (κ × β)) (k : κ)
    (h : k ∉ alKeys d) : alGet d k = none := by
  induction d with
  | nil => rfl
  | cons p rest ih =>
      obtain ⟨k₀, v₀⟩ := p
      have h1 : ¬ k₀ = k := by
        intro hh
        exact h (by simp [alKeys, hh])
      have h2 : k ∉ alKeys rest := fun hh => h (by simp [alKeys] at hh ⊢; exact Or.inr hh)
      simp [alGet, h1, ih h2]

theorem alGet_isSome_iff {κ β : Type} [DecidableEq κ] (d : List (κ × β)) (k : κ) :
    (alGet d k).isSome = true ↔ k ∈ alKeys d := by
  induction d with
  | nil => simp [alGet, alKeys]
  | cons p rest ih =>
      obtain ⟨k₀, v₀⟩ := p
      by_cases h : k₀ = k
      · subst h
        simp [alGet, alKeys]
      · have hne : ¬ k = k₀ := fun hh => h hh.symm
        simp [alGet, alKeys, h, hne, ih]

theorem mem_of_getLast_eq {α : Type} {l : List α} {a : α} (h : l.getLast? = some a) :
    a ∈ l := by
  cases l with
  | nil => simp at h
  | cons x t =>
      have hne : x :: t ≠ [] := by simp
      rw [List.getLast?_eq_getLast _ hne] at h
      have hmem := List.getLast_mem hne
      rw [Option.some.inj h] at hmem
      exact hmem

theorem alGet_sprintMetricsMap (issues : List Issue) (sdt edt : DateTime) (n : String) :
    alGet (sprintMetricsMap issues sdt edt) n
      = (((selectedSprints issues sdt edt).filter (fun s => decide (s.name = n))).getLast?).map
          (fun s => mkSprintMetrics s (memberIssues issues s.id)) := by
  rw [sprintMetricsMap,
    alGet_foldl_update (fun s : SprintInfo => s.name)
      (fun s _ => mkSprintMetrics s (memberIssues issues s.id))
      (selectedSprints issues sdt edt) [] n,
    foldl_const_some]
  cases ((selectedSprints issues sdt edt).filter (fun s => decide (s.name = n))).getLast? with
  | none => simp [alGet]
  | some s => simp

theorem alGet_sprintMap (issues : List Issue) (sid : Int) :
    alGet (sprintMap issues) sid
      = (((activeSprintRefs issues).filter (fun r => decide (r.2.1 = sid))).getLast?).map
          (fun r => mkSprintInfo r.2.1 r.2.2) := by
  rw [sprintMap,
    alGet_foldl_update (fun r : String × Int × SprintEntry => r.2.1)
      (fun r _ => mkSprintInfo r.2.1 r.2.2) (activeSprintRefs issues) [] sid,
    foldl_const_some]
  cases ((activeSprintRefs issues).filter (fun r => decide (r.2.1 = sid))).getLast? with
  | none => simp [alGet]
  | some r => simp

theorem alGet_issueSprintMap (issues : List Issue) (k : String) :
    alGet (issueSprintMap issues) k
      = (if ((activeSprintRefs issues).filter (fun r => decide (r.1 = k))).isEmpty then none
         else some (((activeSprintRefs issues).filter (fun r => decide (r.1 = k))).map
           (fun r => r.2.1))) := by
  rw [issueSprintMap,
    alGet_foldl_update (fun r : String × Int × SprintEntry => r.1)
      (fun r o => o.getD [] ++ [r.2.1]) (activeSprintRefs issues) [] k]
  rw [show alGet ([] : List (String × List Int)) k = none from rfl]
  exact foldl_none_append _ _

theorem refs_iff_references (issues : List Issue) (sid : Int) :
    (∃ r ∈ activeSprintRefs issues, r.2.1 = sid)
      ↔ ∃ i ∈ issues, references i sid = true := by
  constructor
  · rintro ⟨r, hr, hsid⟩
    rw [activeSprintRefs, List.mem_flatMap] at hr
    obtain ⟨i, hi, hmem⟩ := hr
    rw [List.mem_filterMap] at hmem
    obtain ⟨e, he, hfe⟩ := hmem
    refine ⟨i, hi, ?_⟩
    rw [references, List.any_eq_true]
    refine ⟨e, he, ?_⟩
    cases ha : activeId e with
    | none => rw [ha] at hfe; exact absurd hfe (by simp)
    | some s =>
        rw [ha] at hfe
        have hre : (i.key, s, e) = r := by simpa using hfe
        rw [← hre] at hsid
        simp only at hsid
        subst hsid
        simp [ha]
  · rintro ⟨i, hi, hrefs⟩
    rw [references, List.any_eq_true] at hrefs
    obtain ⟨e, he, hbeq⟩ := hrefs
    have ha : activeId e = some sid := by simpa using hbeq
    refine ⟨(i.key, sid, e), ?_, rfl⟩
    rw [activeSprintRefs, List.mem_flatMap]
    refine ⟨i, hi, ?_⟩
    rw [List.mem_filterMap]
    exact ⟨e, he, by rw [ha]⟩

theorem sprintMap_isSome_iff (issues : List Issue) (sid : Int) :
    (alGet (sprintMap issues) sid).isSome = true
      ↔ ∃ i ∈ issues, references i sid = true := by
  rw [alGet_sprintMap, ← refs_iff_references issues sid]
  constructor
  · intro h
    cases hg : ((activeSprintRefs issues).filter (fun r => decide (r.2.1 = sid))).getLast? with
    | none =>
        rw [hg] at h
        simp at h
    | some r =>
        have hm2 := List.mem_filter.mp (mem_of_getLast_eq hg)
        exact ⟨r, hm2.1, by simpa using hm2.2⟩
  · rintro ⟨r, hr, hsid⟩
    have hmem : r ∈ (activeSprintRefs issues).filter (fun r => decide (r.2.1 = sid)) :=
      List.mem_filter.mpr ⟨hr, by simpa using hsid⟩
    have hne := List.ne_nil_of_mem hmem
    rw [List.getLast?_eq_getLast _ hne, Option.map_some']
    rfl

theorem sprintMap_id (issues : List Issue) (sid : Int) (s : SprintInfo)
    (h : alGet (sprintMap issues) sid = some s) : s.id = sid := by
  rw [alGet_sprintMap] at h
  cases hg : ((activeSprintRefs issues).filter (fun r => decide (r.2.1 = sid))).getLast? with
  | none => rw [hg] at h; exact absurd h (by simp)
  | some r =>
      rw [hg] at h
      have hr : r ∈ (activeSprintRefs issues).filter (fun r => decide (r.2.1 = sid)) :=
        mem_of_getLast_eq hg
      have hsid : r.2.1 = sid := by simpa using (List.mem_filter.mp hr).2
      have : mkSprintInfo r.2.1 r.2.2 = s := by simpa using h
      rw [← this, mkSprintInfo, hsid]

theorem issueSprintMap_contains (issues : List Issue) (i : Issue) (sid : Int)
    (hi : i ∈ issues) (href : references i sid = true) :
    (match alGet (issueSprintMap issues) i.key with
     | some l => l.contains sid
     | none => false) = true := by
  rw [references, List.any_eq_true] at href
  obtain ⟨e, he, hbeq⟩ := href
  have ha : activeId e = some sid := by simpa using hbeq
  have hr : (i.key, sid, e) ∈ activeSprintRefs issues := by
    rw [activeSprintRefs, List.mem_flatMap]
    refine ⟨i, hi, ?_⟩
    rw [List.mem_filterMap]
    exact ⟨e, he, by rw [ha]⟩
  have hrf : (i.key, sid, e)
      ∈ (activeSprintRefs issues).filter (fun r => decide (r.1 = i.key)) :=
    List.mem_filter.mpr ⟨hr, by simp⟩
  rw [alGet_issueSprintMap]
  have hne : ¬ ((activeSprintRefs issues).filter
      (fun r => decide (r.1 = i.key))).isEmpty = true := by
    intro hempty
    rw [List.isEmpty_iff] at hempty
    rw [hempty] at hrf
    exact List.not_mem_nil _ hrf
  rw [if_neg hne]
  have hmm : sid ∈ ((activeSprintRefs issues).filter
      (fun r => decide (r.1 = i.key))).map (fun r => r.2.1) :=
    List.mem_map.mpr ⟨(i.key, sid, e), hrf, rfl⟩
  simpa using hmm

theorem member_nonempty (issues : List Issue) (sid : Int)
    (h : ∃ i ∈ issues, references i sid = true) :
    (memberIssues issues sid).isEmpty = false := by
  obtain ⟨i, hi, href⟩ := h
  have hpred := issueSprintMap_contains issues i sid hi href
  have hmem : i ∈ memberIssues issues sid := by
    rw [memberIssues, memberIssuesWith]
    exact List.mem_filter.mpr ⟨hi, hpred⟩
  have hne : memberIssues issues sid ≠ [] := List.ne_nil_of_mem hmem
  cases hmm : memberIssues issues sid with
  | nil => exact absurd hmm hne
  | cons a t => rfl

theorem sprintMap_values_iff (issues : List Issue) (s : SprintInfo) :
    s ∈ alValues (sprintMap issues) ↔ alGet (sprintMap issues) s.id = some s := by
  have hnd : (alKeys (sprintMap issues)).Nodup := by
    rw [sprintMap]
    exact alKeys_foldl_nodup (fun r : String × Int × SprintEntry => r.2.1)
      (fun r _ => mkSprintInfo r.2.1 r.2.2) (activeSprintRefs issues) []
      (by simp [alKeys])
  constructor
  · intro h
    rw [alValues] at h
    obtain ⟨⟨sid, s'⟩, hmem, hs⟩ := List.mem_map.mp h
    simp only at hs
    subst hs
    have hget : alGet (sprintMap issues) sid = some s' := alGet_of_mem_nodup _ _ _ hnd hmem
    have hid : s'.id = sid := sprintMap_id issues sid s' hget
    rw [hid]
    exact hget
  · intro h
    exact List.mem_map.mpr ⟨(s.id, s), alGet_mem _ _ _ h, rfl⟩

theorem selected_iff (issues : List Issue) (sdt edt : DateTime) (s : SprintInfo) :
    s ∈ selectedSprints issues sdt edt
      ↔ alGet (sprintMap issues) s.id = some s
        ∧ hasDatesOverlapping s sdt edt = true := by
  rw [selectedSprints, List.mem_filter, filteredSprints, List.mem_filter]
  constructor
  · rintro ⟨⟨hval, hover⟩, _⟩
    exact ⟨(sprintMap_values_iff issues s).mp hval, hover⟩
  · rintro ⟨hget, hover⟩
    refine ⟨⟨(sprintMap_values_iff issues s).mpr hget, hover⟩, ?_⟩
    have hsome : (alGet (sprintMap issues) s.id).isSome = true := by
      rw [hget]
      rfl
    have href := (sprintMap_isSome_iff issues s.id).mp hsome
    have hm := member_nonempty issues s.id href
    simp [hm]

theorem metrics_isSome_iff (issues : List Issue) (sdt edt : DateTime) (n : String) :
    (alGet (sprintMetricsMap issues sdt edt) n).isSome = true
      ↔ ∃ s ∈ selectedSprints issues sdt edt, s.name = n := by
  rw [alGet_sprintMetricsMap]
  constructor
  · intro h
    cases hg : ((selectedSprints issues sdt edt).filter
        (fun s => decide (s.name = n))).getLast? with
    | none =>
        rw [hg] at h
        simp at h
    | some s =>
        have hm := List.mem_filter.mp (mem_of_getLast_eq hg)
        exact ⟨s, hm.1, by simpa using hm.2⟩
  · rintro ⟨s, hs, hn⟩
    have hmem : s ∈ (selectedSprints issues sdt edt).filter
        (fun s => decide (s.name = n)) :=
      List.mem_filter.mpr ⟨hs, by simpa using hn⟩
    have hne := List.ne_nil_of_mem hmem
    rw [List.getLast?_eq_getLast _ hne, Option.map_some']
    rfl

/-! ### Sums and lookups of the allocation dicts -/

theorem alValues_sum_alUpdate_add (d : List (String × Int)) (k : String) (v : Int) :
    (alValues (alUpdate d k (fun o => o.getD 0 + v))).sum = (alValues d).sum + v := by
  induction d with
  | nil => simp [alUpdate, alValues]
  | cons p rest ih =>
      obtain ⟨k₀, v₀⟩ := p
      by_cases h : k₀ = k
      · subst h
        have he : alUpdate ((k₀, v₀) :: rest) k₀ (fun o => o.getD 0 + v)
            = (k₀, v₀ + v) :: rest := by
          simp [alUpdate]
        rw [he]
        simp only [alValues, List.map_cons, List.sum_cons, Option.getD_some]
        ring
      · simp only [alUpdate, if_neg h, alValues, List.map_cons, List.sum_cons]
        simp only [alValues] at ih
        rw [ih]
        ring

theorem epicFold_values_sum (f : Issue → Int) (key : Issue → String) (l : List Issue) :
    ∀ d : List (String × Int),
    (alValues (l.foldl (fun d i => alUpdate d (key i) (fun o => o.getD 0 + f i)) d)).sum
      = (alValues d).sum + (l.map f).sum := by
  induction l with
  | nil => intro d; simp
  | cons i t ih =>
      intro d
      simp only [List.foldl_cons, List.map_cons, List.sum_cons]
      rw [ih, alValues_sum_alUpdate_add]
      ring

theorem epicAllocPoints_values_sum (l : List Issue) :
    (alValues (epicAllocPoints l)).sum = totalSprintPoints l := by
  have h := epicFold_values_sum storyPointsVal (classify "Uncategorized") l []
  simpa [totalSprintPoints, alValues] using h

theorem list_sum_ones (xs : List Issue) : (xs.map (fun _ => (1 : Int))).sum = (xs.length : Int) := by
  induction xs with
  | nil => simp
  | cons a t ih =>
      simp only [List.map_cons, List.sum_cons, List.length_cons, ih]
      push_cast
      ring

theorem epicCountByKey_values_sum (l : List Issue) :
    (alValues (epicCountByKey l)).sum = (l.length : Int) := by
  have h := epicFold_values_sum (fun _ => 1) (classify "Uncategorized") l []
  rw [list_sum_ones] at h
  simpa [alValues] using h

theorem alValues_map_ratio (d : List (String × Int)) (T : ℚ) :
    (alValues (d.map (fun e => (e.1, (e.2 : ℚ) / T * 100)))).sum
      = (((alValues d).sum : Int) : ℚ) / T * 100 := by
  induction d with
  | nil => simp [alValues]
  | cons p rest ih =>
      obtain ⟨k₀, v₀⟩ := p
      simp only [List.map_cons, alValues, List.sum_cons] at ih ⊢
      rw [ih, Int.cast_add, add_div, add_mul]

theorem epicPercentages_values_sum (l : List Issue) (hne : l ≠ []) :
    (alValues (epicPercentages l)).sum = 100 := by
  by_cases hT : totalSprintPoints l > 0
  · rw [epicPercentages, if_pos hT, alValues_map_ratio, epicAllocPoints_values_sum]
    have hz : ((totalSprintPoints l : ℚ)) ≠ 0 := by
      exact_mod_cast ne_of_gt hT
    rw [div_self hz, one_mul]
  · have hlen : l.length > 0 := List.length_pos.mpr hne
    rw [epicPercentages, if_neg hT, if_pos hlen, alValues_map_ratio,
      epicCountByKey_values_sum]
    have hz : ((l.length : ℚ)) ≠ 0 := Nat.cast_ne_zero.mpr hlen.ne'
    push_cast
    rw [div_self hz, one_mul]

/-- Story points accumulated for one epic key inside one sprint: the sum
over exactly the member issues classified to that key. -/
def accPoints (l : List Issue) (k : String) : Int :=
  ((l.filter (fun i => decide (classify "Uncategorized" i = k))).map storyPointsVal).sum

/-- Number of member issues classified to one epic key. -/
def classCount (l : List Issue) (k : String) : Nat :=
  (l.filter (fun i => decide (classify "Uncategorized" i = k))).length

theorem alGet_epicAllocPoints (l : List Issue) (k : String) :
    alGet (epicAllocPoints l) k
      = (if (l.filter (fun i => decide (classify "Uncategorized" i = k))).isEmpty then none
         else some (accPoints l k)) := by
  rw [epicAllocPoints,
    alGet_foldl_update (fun i => classify "Uncategorized" i)
      (fun i o => o.getD 0 + storyPointsVal i) l [] k,
    show alGet ([] : List (String × Int)) k = none from rfl,
    foldl_none_add]
  rfl

theorem alGet_epicCountByKey (l : List Issue) (k : String) :
    alGet (epicCountByKey l) k
      = (if (l.filter (fun i => decide (classify "Uncategorized" i = k))).isEmpty then none
         else some ((classCount l k : Int))) := by
  rw [epicCountByKey,
    alGet_foldl_update (fun i => classify "Uncategorized" i)
      (fun i o => o.getD 0 + 1) l [] k,
    show alGet ([] : List (String × Int)) k = none from rfl,
    foldl_none_add]
  by_cases h : (l.filter (fun i => decide (classify "Uncategorized" i = k))).isEmpty
  · rw [if_pos h, if_pos h]
  · rw [if_neg h, if_neg h, classCount, list_sum_ones]

theorem alGet_map_ratio (d : List (String × Int)) (T : ℚ) (k : String) :
    alGet (d.map (fun e => (e.1, (e.2 : ℚ) / T * 100))) k
      = (alGet d k).map (fun v => (v : ℚ) / T * 100) := by
  induction d with
  | nil => rfl
  | cons p rest ih =>
      obtain ⟨k₀, v₀⟩ := p
      by_cases h : k₀ = k
      · subst h
        simp [alGet]
      · simp [alGet, h, ih]

/-! ### The epic rollup, characterized -/

theorem foldl_bucket_some (en : List (String × String)) (xs : List Issue) (b : EpicBucket) :
    xs.foldl (fun o i =>
        some (bucketPush (o.getD (newBucket en (classify "_no_epic" i))) i)) (some b)
      = some
          { b with
              issues := b.issues ++ xs
              total_time_spent := b.total_time_spent + (xs.map timeSpentVal).sum
              total_time_estimate :=
                b.total_time_estimate + (xs.map timeEstimateVal).sum } := by
  induction xs generalizing b with
  | nil => simp
  | cons i t ih =>
      simp only [List.foldl_cons, Option.getD_some]
      rw [ih]
      simp [bucketPush, List.append_assoc, add_assoc]

theorem alGet_epicsRollup (en : List (String × String)) (issues : List Issue) (k : String) :
    alGet (epicsRollup en issues) k
      = (if (issues.filter (fun i => decide (classify "_no_epic" i = k))).isEmpty then none
         else some
           { key := k
             name := if k == "_no_epic" then "Uncategorized" else (alGet en k).getD k
             issues := issues.filter (fun i => decide (classify "_no_epic" i = k))
             total_time_spent :=
               ((issues.filter (fun i => decide (classify "_no_epic" i = k))).map
                 timeSpentVal).sum
             total_time_estimate :=
               ((issues.filter (fun i => decide (classify "_no_epic" i = k))).map
                 timeEstimateVal).sum }) := by
  rw [epicsRollup,
    alGet_foldl_update (fun i => classify "_no_epic" i)
      (fun i o => bucketPush (o.getD (newBucket en (classify "_no_epic" i))) i) issues [] k,
    show alGet ([] : List (String × EpicBucket)) k = none from rfl]
  cases hf : issues.filter (fun i => decide (classify "_no_epic" i = k)) with
  | nil => simp
  | cons i t =>
      have hmem : i ∈ issues.filter (fun i => decide (classify "_no_epic" i = k)) := by
        rw [hf]
        exact List.mem_cons_self _ _
      have hki : classify "_no_epic" i = k := by
        simpa using (List.mem_filter.mp hmem).2
      simp only [List.foldl_cons, Option.getD_none]
      rw [foldl_bucket_some, hki]
      simp [bucketPush, newBucket]

/-! ### Membership maps compared as sets (for duplicate sprint ids) -/

/-- Two issue-to-sprint-id maps agree as SETS: every recorded id list
contains the same ids, multiplicity and order ignored. -/
def idSetsAgree (m n : List (String × List Int)) : Bool :=
  (alKeys m ++ alKeys n).all (fun k =>
    (((alGet m k).getD []).all (fun s => ((alGet n k).getD []).contains s))
      && (((alGet n k).getD []).all (fun s => ((alGet m k).getD []).contains s)))

theorem memberPred_eq (m : List (String × List Int)) (k : String) (sid : Int) :
    (match alGet m k with
     | some l => l.contains sid
     | none => false) = ((alGet m k).getD []).contains sid := by
  cases alGet m k with
  | none => rfl
  | some l => rfl

theorem idSetsAgree_spec (m n : List (String × List Int)) (h : idSetsAgree m n = true)
    (k : String) (sid : Int) :
    ((alGet m k).getD []).contains sid = ((alGet n k).getD []).contains sid := by
  by_cases hmem : k ∈ alKeys m ++ alKeys n
  · rw [idSetsAgree, List.all_eq_true] at h
    have hk := h k hmem
    rw [Bool.and_eq_true, List.all_eq_true, List.all_eq_true] at hk
    obtain ⟨h1, h2⟩ := hk
    by_cases hc : ((alGet m k).getD []).contains sid = true
    · have hs : sid ∈ (alGet m k).getD [] := by simpa using hc
      have hc' := h1 sid hs
      rw [hc, hc']
    · by_cases hc' : ((alGet n k).getD []).contains sid = true
      · have hs : sid ∈ (alGet n k).getD [] := by simpa using hc'
        exact absurd (h2 sid hs) hc
      · rw [Bool.not_eq_true] at hc hc'
        rw [hc, hc']
  · rw [List.mem_append] at hmem
    push_neg at hmem
    rw [alGet_none_of_not_mem _ _ hmem.1, alGet_none_of_not_mem _ _ hmem.2]

theorem memberIssuesWith_congr (m n : List (String × List Int)) (issues : List Issue)
    (sid : Int) (h : idSetsAgree m n = true) :
    memberIssuesWith m issues sid = memberIssuesWith n issues sid := by
  rw [memberIssuesWith, memberIssuesWith]
  apply List.filter_congr
  intro i _
  rw [memberPred_eq, memberPred_eq, idSetsAgree_spec m n h i.key sid]

theorem memberIssuesWith_count_le (m : List (String × List Int)) (issues : List Issue)
    (sid : Int) (i : Issue) :
    (memberIssuesWith m issues sid).count i ≤ issues.count i :=
  List.Sublist.count_le (List.filter_sublist _) i

/-- Lookup form of the two allocation branches, at the level of one
member-issue list. -/
theorem epicPercentages_lookup (l : List Issue) (k : String) :
    (totalSprintPoints l > 0 →
      accPoints l k ≠ 0 →
      alGet (epicPercentages l) k
        = some ((accPoints l k : ℚ) / (totalSprintPoints l : ℚ) * 100))
    ∧ (¬ totalSprintPoints l > 0 →
      classCount l k ≠ 0 →
      alGet (epicPercentages l) k
        = some ((classCount l k : ℚ) / (l.length : ℚ) * 100)) := by
  constructor
  · intro hT hacc
    have hne : ¬ (l.filter (fun i => decide (classify "Uncategorized" i = k))).isEmpty
        = true := by
      intro hempty
      rw [List.isEmpty_iff] at hempty
      apply hacc
      rw [accPoints, hempty]
      rfl
    rw [epicPercentages, if_pos hT, alGet_map_ratio, alGet_epicAllocPoints, if_neg hne]
    rfl
  · intro hT hcnt
    have hne : ¬ (l.filter (fun i => decide (classify "Uncategorized" i = k))).isEmpty
        = true := by
      intro hempty
      rw [List.isEmpty_iff] at hempty
      apply hcnt
      rw [classCount, hempty]
      rfl
    have hlen : l.length > 0 := by
      rcases l with _ | ⟨a, t⟩
      · exact absurd rfl hne
      · simp
    rw [epicPercentages, if_neg hT, if_pos hlen, alGet_map_ratio, alGet_epicCountByKey,
      if_neg hne]
    norm_cast

/-! ### Concrete example inputs (mirroring the worked example of the spec) -/

def egDt (y m d : Int) : DateTime := ⟨y, m, d, 0, 0, 0⟩

def egEntry1 : SprintEntry :=
  { id := some 1, name := some "Sprint Alpha", state := some "closed",
    startDate := some (egDt 2025 7 1), endDate := some (egDt 2025 7 14),
    completeDate := none }

def egEntry2 : SprintEntry :=
  { id := some 2, name := some "Sprint Alpha", state := some "closed",
    startDate := some (egDt 2025 8 1), endDate := some (egDt 2025 8 14),
    completeDate := none }

def egEntry5 : SprintEntry :=
  { id := some 5, name := some "Sprint Beta", state := some "active",
    startDate := some (egDt 2025 9 1), endDate := some (egDt 2025 9 14),
    completeDate := none }

def egIssueA : Issue :=
  { key := "PROJ-1", status := "Done", issuetype := "Story",
    summary := "Implement search", storyPoints := some 5, timespent := some 3600,
    timeoriginalestimate := some 7200, parent := some "EPIC-1", sprints := [egEntry1] }

def egIssueB : Issue :=
  { key := "PROJ-2", status := "In Progress", issuetype := "Task",
    summary := "Write docs", storyPoints := some 3, timespent := none,
    timeoriginalestimate := none, parent := some "EPIC-2", sprints := [egEntry1] }

def egIssueC : Issue :=
  { key := "PROJ-3", status := "Done", issuetype := "Task",
    summary := "Fix login bug", storyPoints := none, timespent := some 1800,
    timeoriginalestimate := none, parent := none, sprints := [egEntry2] }

def egIssueD : Issue :=
  { key := "PROJ-4", status := "Done", issuetype := "Story",
    summary := "Migrate database", storyPoints := some 2, timespent := none,
    timeoriginalestimate := none, parent := some "EPIC-1",
    sprints := [egEntry5, egEntry5] }

def egIssues : List Issue := [egIssueA, egIssueB]

def egIssues2 : List Issue := [egIssueA, egIssueB, egIssueC]

def egIssuesDup : List Issue := [egIssueD]

def egStart : DateTime := egDt 2025 7 1

def egEnd : DateTime := egDt 2025 12 31

/-! ### The claims -/

/-- C1: for every sprint present in the returned sprint-metrics mapping,
the reported `velocity` equals `completed_points`, and both equal the sum
of `story_points` (absent counted as 0 by `storyPointsVal`) over exactly
those member issues whose lower-cased status is one of done/closed/resolved
(`isCompleted`); a member issue with any other status contributes nothing,
and the value is a story-point sum, never an issue count. -/
theorem C1_velocity_is_completed_points (issues : List Issue) (sdt edt : DateTime)
    (n : String) (met : SprintMetrics)
    (h : alGet (sprintMetricsMap issues sdt edt) n = some met) :
    met.velocity = met.completed_points
    ∧ met.velocity
        = (((memberIssues issues met.sprint_id).filter isCompleted).map
            storyPointsVal).sum := by
  rw [alGet_sprintMetricsMap] at h
  cases hg : ((selectedSprints issues sdt edt).filter
      (fun s => decide (s.name = n))).getLast? with
  | none =>
      rw [hg] at h
      exact absurd h (by simp)
  | some s =>
      rw [hg, Option.map_some'] at h
      have hmet := Option.some.inj h
      rw [← hmet]
      exact ⟨rfl, rfl⟩

theorem C1_witness :
    (mkSprintMetrics (mkSprintInfo 1 egEntry1) (memberIssues egIssues 1)).velocity
      = (mkSprintMetrics (mkSprintInfo 1 egEntry1) (memberIssues egIssues 1)).completed_points
    ∧ (mkSprintMetrics (mkSprintInfo 1 egEntry1) (memberIssues egIssues 1)).velocity
      = (((memberIssues egIssues
            (mkSprintMetrics (mkSprintInfo 1 egEntry1)
              (memberIssues egIssues 1)).sprint_id).filter isCompleted).map
          storyPointsVal).sum :=
  C1_velocity_is_completed_points egIssues egStart egEnd "Sprint Alpha"
    (mkSprintMetrics (mkSprintInfo 1 egEntry1) (memberIssues egIssues 1)) rfl

/-- C2: for every sprint present in the returned mapping, its
`epic_allocation` is computed from the member issues classified by
`classify "Uncategorized"`: when the total story points are positive, each
epic key with nonzero accumulated points maps to
`accumulated / total * 100`; otherwise each epic key with at least one
member issue maps to `count / total_issues * 100`; the branch is selected
exactly by `total_points > 0`. -/
theorem C2_epic_allocation_branches (issues : List Issue) (sdt edt : DateTime)
    (n : String) (met : SprintMetrics)
    (h : alGet (sprintMetricsMap issues sdt edt) n = some met) (k : String) :
    (totalSprintPoints (memberIssues issues met.sprint_id) > 0 →
      accPoints (memberIssues issues met.sprint_id) k ≠ 0 →
      alGet met.epic_allocation k
        = some ((accPoints (memberIssues issues met.sprint_id) k : ℚ)
            / (totalSprintPoints (memberIssues issues met.sprint_id) : ℚ) * 100))
    ∧ (¬ totalSprintPoints (memberIssues issues met.sprint_id) > 0 →
      classCount (memberIssues issues met.sprint_id) k ≠ 0 →
      alGet met.epic_allocation k
        = some ((classCount (memberIssues issues met.sprint_id) k : ℚ)
            / ((memberIssues issues met.sprint_id).length : ℚ) * 100)) := by
  rw [alGet_sprintMetricsMap] at h
  cases hg : ((selectedSprints issues sdt edt).filter
      (fun s => decide (s.name = n))).getLast? with
  | none =>
      rw [hg] at h
      exact absurd h (by simp)
  | some s =>
      rw [hg, Option.map_some'] at h
      have hmet := Option.some.inj h
      rw [← hmet]
      exact epicPercentages_lookup (memberIssues issues s.id) k

theorem C2_witness :
    totalSprintPoints (memberIssues egIssues 1) > 0
    ∧ accPoints (memberIssues egIssues 1) "EPIC-1" ≠ 0
    ∧ alGet (mkSprintMetrics (mkSprintInfo 1 egEntry1)
          (memberIssues egIssues 1)).epic_allocation "EPIC-1"
        = some ((accPoints (memberIssues egIssues 1) "EPIC-1" : ℚ)
            / (totalSprintPoints (memberIssues egIssues 1) : ℚ) * 100) :=
  ⟨by decide, by decide,
    (C2_epic_allocation_branches egIssues egStart egEnd "Sprint Alpha"
        (mkSprintMetrics (mkSprintInfo 1 egEntry1) (memberIssues egIssues 1))
        rfl "EPIC-1").1 (by decide) (by decide)⟩

/-- C3: for every sprint present in the returned mapping (such a sprint has
at least one member issue), the values of its `epic_allocation` sum to
100.0 within 0.01, in both the story-point branch and the issue-count
fallback (in the exact-rational model the sum is exactly 100). -/
theorem C3_epic_allocation_sums_to_100 (issues : List Issue) (sdt edt : DateTime)
    (n : String) (met : SprintMetrics)
    (h : alGet (sprintMetricsMap issues sdt edt) n = some met) :
    |(alValues met.epic_allocation).sum - 100| ≤ 1 / 100 := by
  rw [alGet_sprintMetricsMap] at h
  cases hg : ((selectedSprints issues sdt edt).filter
      (fun s => decide (s.name = n))).getLast? with
  | none =>
      rw [hg] at h
      exact absurd h (by simp)
  | some s =>
      rw [hg, Option.map_some'] at h
      have hmet := Option.some.inj h
      have hmem := List.mem_filter.mp (mem_of_getLast_eq hg)
      have hsel := hmem.1
      rw [selectedSprints, List.mem_filter] at hsel
      have hnb : (memberIssues issues s.id).isEmpty = false := by
        have hb := hsel.2
        simpa using hb
      have hne : memberIssues issues s.id ≠ [] := by
        intro hnil
        rw [hnil] at hnb
        simp at hnb
      rw [← hmet]
      show |(alValues (epicPercentages (memberIssues issues s.id))).sum - 100| ≤ 1 / 100
      rw [epicPercentages_values_sum _ hne]
      norm_num

theorem C3_witness :
    |(alValues (mkSprintMetrics (mkSprintInfo 1 egEntry1)
        (memberIssues egIssues 1)).epic_allocation).sum - 100| ≤ 1 / 100 :=
  C3_epic_allocation_sums_to_100 egIssues egStart egEnd "Sprint Alpha"
    (mkSprintMetrics (mkSprintInfo 1 egEntry1) (memberIssues egIssues 1)) rfl

/-- C4: a sprint appears in the output iff (a) at least one of the person's
issues references its id and (b) its merged registry record has both dates
present and overlapping the period (`hasDatesOverlapping` is exactly
`sprint.start <= period.end AND sprint.end >= period.start` guarded by
date presence); part one says the registry holds exactly the referenced
ids, part two that selection adds only the date condition (a referenced
sprint always has a member issue), and part three that the output has an
entry exactly for the names of selected sprints.  All functions involved
are total: a sprint failing the conditions is silently dropped, no error
value exists. -/
theorem C4_sprint_selection (issues : List Issue) (sdt edt : DateTime) :
    (∀ sid : Int, (alGet (sprintMap issues) sid).isSome = true
        ↔ ∃ i ∈ issues, references i sid = true)
    ∧ (∀ s : SprintInfo, s ∈ selectedSprints issues sdt edt
        ↔ alGet (sprintMap issues) s.id = some s
          ∧ hasDatesOverlapping s sdt edt = true)
    ∧ (∀ n : String, (alGet (sprintMetricsMap issues sdt edt) n).isSome = true
        ↔ ∃ s ∈ selectedSprints issues sdt edt, s.name = n) :=
  ⟨sprintMap_isSome_iff issues, fun s => selected_iff issues sdt edt s,
    metrics_isSome_iff issues sdt edt⟩

theorem C4_witness :
    (alGet (sprintMap egIssues) 1).isSome = true
    ∧ mkSprintInfo 1 egEntry1 ∈ selectedSprints egIssues egStart egEnd := by
  have h := C4_sprint_selection egIssues egStart egEnd
  exact ⟨(h.1 1).mpr ⟨egIssueA, by decide, by decide⟩,
    (h.2.1 (mkSprintInfo 1 egEntry1)).mpr ⟨by decide, by decide⟩⟩

/-- C5: the epic rollup is computed over the entire person-scoped issue
list (it has no sprint or period parameter): every issue's classified key
has a bucket, and every bucket holds exactly the issues classified to its
key, with issue count, total time spent and total time estimate the count
and sums (absent values 0) over those issues; the sentinel bucket is
labeled "Uncategorized". -/
theorem C5_epic_rollup (epicNames : List (String × String)) (issues : List Issue) :
    (∀ i ∈ issues,
      (alGet (epicsRollup epicNames issues) (classify "_no_epic" i)).isSome = true)
    ∧ (∀ (k : String) (b : EpicBucket), alGet (epicsRollup epicNames issues) k = some b →
        b.issues.length
            = (issues.filter (fun i => decide (classify "_no_epic" i = k))).length
        ∧ b.total_time_spent
            = ((issues.filter (fun i => decide (classify "_no_epic" i = k))).map
                timeSpentVal).sum
        ∧ b.total_time_estimate
            = ((issues.filter (fun i => decide (classify "_no_epic" i = k))).map
                timeEstimateVal).sum
        ∧ (k = "_no_epic" → b.name = "Uncategorized")) := by
  constructor
  · intro i hi
    rw [alGet_epicsRollup]
    have hmem : i ∈ issues.filter
        (fun j => decide (classify "_no_epic" j = classify "_no_epic" i)) :=
      List.mem_filter.mpr ⟨hi, by simp⟩
    have hne : ¬ (issues.filter
        (fun j => decide (classify "_no_epic" j = classify "_no_epic" i))).isEmpty
        = true := by
      intro hempty
      rw [List.isEmpty_iff] at hempty
      rw [hempty] at hmem
      exact List.not_mem_nil _ hmem
    rw [if_neg hne]
    rfl
  · intro k b h
    rw [alGet_epicsRollup] at h
    by_cases hempty : (issues.filter
        (fun i => decide (classify "_no_epic" i = k))).isEmpty = true
    · rw [if_pos hempty] at h
      exact absurd h (by simp)
    · rw [if_neg hempty] at h
      have hb := Option.some.inj h
      rw [← hb]
      refine ⟨rfl, rfl, rfl, ?_⟩
      intro hk
      subst hk
      rfl

def egBucket1 : EpicBucket :=
  { key := "EPIC-1", name := "Search Epic", issues := [egIssueA],
    total_time_spent := 3600, total_time_estimate := 7200 }

theorem C5_witness :
    egBucket1.issues.length
        = (egIssues.filter (fun i => decide (classify "_no_epic" i = "EPIC-1"))).length
    ∧ egBucket1.total_time_spent
        = ((egIssues.filter (fun i => decide (classify "_no_epic" i = "EPIC-1"))).map
            timeSpentVal).sum
    ∧ egBucket1.total_time_estimate
        = ((egIssues.filter (fun i => decide (classify "_no_epic" i = "EPIC-1"))).map
            timeEstimateVal).sum
    ∧ ("EPIC-1" = "_no_epic" → egBucket1.name = "Uncategorized") :=
  (C5_epic_rollup [("EPIC-1", "Search Epic")] egIssues).2 "EPIC-1" egBucket1 rfl

/-- C6 counterexample: the pair (2024-01-01, 2025-12-31) is NOT one of the
seven canonical single-year ranges (`specCanonicalPair` is false), yet the
formatter does not return the `"start to end"` fallback — it returns the
full-year label for 2024, because the `period_patterns` key carries only
months and days, never the years. -/
theorem C6_counterexample :
    specCanonicalPair ⟨2024, 1, 1⟩ ⟨2025, 12, 31⟩ = false
    ∧ formatAnalysisPeriod "2024-01-01" "2025-12-31"
        = some "2024 (January 1 - December 31, 2024)"
    ∧ formatAnalysisPeriod "2024-01-01" "2025-12-31"
        ≠ some ("2024-01-01" ++ " to " ++ "2025-12-31") := by
  refine ⟨rfl, by decide, by decide⟩

/-- C6 (amended): the formatter returns exactly `"start to end"` for every
parsable pair whose `(start.month, start.day, end.month, end.day)` tuple
matches none of the seven month/day pattern keys; year equality is not
part of the dictionary key, so a pair hitting a pattern's month/day
components is formatted with the start year's canonical label even when
the years differ. -/
theorem C6_fallback_on_pattern_miss (s e : String) (ds de : Date)
    (hs : dateParse s = some ds) (he : dateParse e = some de)
    (h : periodPatternHit ds.month ds.day de.month de.day = false) :
    formatAnalysisPeriod s e = some (s ++ " to " ++ e) := by
  rw [formatAnalysisPeriod, hs, he]
  show some (formatDates ds de s e) = some (s ++ " to " ++ e)
  rw [formatDates_fallback ds de s e h]

theorem C6_witness :
    dateParse "2025-03-15" = some ⟨2025, 3, 15⟩
    ∧ periodPatternHit 3 15 9 20 = false
    ∧ formatAnalysisPeriod "2025-03-15" "2025-09-20"
        = some ("2025-03-15" ++ " to " ++ "2025-09-20") :=
  ⟨by decide, by decide,
    C6_fallback_on_pattern_miss "2025-03-15" "2025-09-20" ⟨2025, 3, 15⟩ ⟨2025, 9, 20⟩
      (by decide) (by decide) (by decide)⟩

/-- C7: for each of the seven canonical token shapes over any 4-digit year
(1000-9999), parsing the token and formatting the resulting date pair
yields the canonical human label beginning with that token: the label
formatter inverts the forward mapping on all seven shapes.  Conjuncts in
order: YYYY, YYYYH1, YYYYH2, YYYYQ1, YYYYQ2, YYYYQ3, YYYYQ4. -/
theorem C7_roundtrip (y : Nat) (h1 : 1000 ≤ y) (h2 : y ≤ 9999) :
    (parsePeriod (String.mk (natReprChars y))
        = .ok (natReprStr y ++ "-01-01", natReprStr y ++ "-12-31")
      ∧ formatAnalysisPeriod (natReprStr y ++ "-01-01") (natReprStr y ++ "-12-31")
        = some (natReprStr y ++ " (January 1 - December 31, " ++ natReprStr y ++ ")"))
    ∧ (parsePeriod (String.mk (natReprChars y ++ ['H', '1']))
        = .ok (natReprStr y ++ "-01-01", natReprStr y ++ "-06-30")
      ∧ formatAnalysisPeriod (natReprStr y ++ "-01-01") (natReprStr y ++ "-06-30")
        = some (natReprStr y ++ "H1 (January 1 - June 30, " ++ natReprStr y ++ ")"))
    ∧ (parsePeriod (String.mk (natReprChars y ++ ['H', '2']))
        = .ok (natReprStr y ++ "-07-01", natReprStr y ++ "-12-31")
      ∧ formatAnalysisPeriod (natReprStr y ++ "-07-01") (natReprStr y ++ "-12-31")
        = some (natReprStr y ++ "H2 (July 1 - December 31, " ++ natReprStr y ++ ")"))
    ∧ (parsePeriod (String.mk (natReprChars y ++ ['Q', '1']))
        = .ok (natReprStr y ++ "-01-01", natReprStr y ++ "-03-31")
      ∧ formatAnalysisPeriod (natReprStr y ++ "-01-01") (natReprStr y ++ "-03-31")
        = some (natReprStr y ++ "Q1 (January 1 - March 31, " ++ natReprStr y ++ ")"))
    ∧ (parsePeriod (String.mk (natReprChars y ++ ['Q', '2']))
        = .ok (natReprStr y ++ "-04-01", natReprStr y ++ "-06-30")
      ∧ formatAnalysisPeriod (natReprStr y ++ "-04-01") (natReprStr y ++ "-06-30")
        = some (natReprStr y ++ "Q2 (April 1 - June 30, " ++ natReprStr y ++ ")"))
    ∧ (parsePeriod (String.mk (natReprChars y ++ ['Q', '3']))
        = .ok (natReprStr y ++ "-07-01", natReprStr y ++ "-09-30")
      ∧ formatAnalysisPeriod (natReprStr y ++ "-07-01") (natReprStr y ++ "-09-30")
        = some (natReprStr y ++ "Q3 (July 1 - September 30, " ++ natReprStr y ++ ")"))
    ∧ (parsePeriod (String.mk (natReprChars y ++ ['Q', '4']))
        = .ok (natReprStr y ++ "-10-01", natReprStr y ++ "-12-31")
      ∧ formatAnalysisPeriod (natReprStr y ++ "-10-01") (natReprStr y ++ "-12-31")
        = some (natReprStr y ++ "Q4 (October 1 - December 31, " ++ natReprStr y ++ ")")) :=
  ⟨roundtrip_year y h1 h2, roundtrip_H1 y h1 h2, roundtrip_H2 y h1 h2,
    roundtrip_Q1 y h1 h2, roundtrip_Q2 y h1 h2, roundtrip_Q3 y h1 h2,
    roundtrip_Q4 y h1 h2⟩

theorem C7_witness :
    parsePeriod "2025H2" = Except.ok ("2025-07-01", "2025-12-31")
    ∧ formatAnalysisPeriod "2025-07-01" "2025-12-31"
        = some "2025H2 (July 1 - December 31, 2025)" := by
  have h := C7_roundtrip 2025 (by norm_num) (by norm_num)
  exact ⟨h.2.2.1.1, h.2.2.1.2⟩

/-- C8: `_parse_period` yields an error exactly for the tokens whose
stripped, upper-cased form matches none of the seven accepted shapes
(`shapeOK`); when it errors, the message restates the accepted formats.
The embedding is a pure function of the token — there is no I/O or other
effect to model. -/
theorem C8_invalid_period (t : String) :
    ((∃ msg, parsePeriod t = .error msg) ↔ shapeOK (pyUpper (pyStrip t.data)) = false)
    ∧ (∀ msg, parsePeriod t = .error msg →
        msg = "Invalid period format: " ++ String.mk (pyUpper (pyStrip t.data))
          ++ ". Use format: YYYYH1, YYYYH2, YYYYQ1-Q4, or YYYY (e.g., "
          ++ apos ++ "2025H2" ++ apos ++ ", " ++ apos ++ "2026Q1" ++ apos
          ++ ", " ++ apos ++ "2025" ++ apos ++ ")") := by
  have h := parsePeriodCore_err (pyUpper (pyStrip t.data))
  exact ⟨h.1, fun msg hm => h.2 msg hm⟩

theorem C8_witness :
    (∃ msg, parsePeriod "FOO" = .error msg)
    ∧ shapeOK (pyUpper (pyStrip "FOO".data)) = false := by
  have h := C8_invalid_period "FOO"
  exact ⟨h.1.mpr (by decide), by decide⟩

/-- C9: the output mapping is keyed by sprint NAME: when two selected
sprints with distinct ids share a name, the mapping holds a single entry
for that name carrying the metrics of whichever sprint was processed last,
and the other sprint's metrics are silently absent. -/
theorem C9_name_collision (issues : List Issue) (sdt edt : DateTime)
    (s1 s2 : SprintInfo) (n : String)
    (_h1 : s1 ∈ selectedSprints issues sdt edt)
    (_h2 : s2 ∈ selectedSprints issues sdt edt)
    (_hn1 : s1.name = n) (_hn2 : s2.name = n) (_hid : s1.id ≠ s2.id)
    (hlast : ((selectedSprints issues sdt edt).filter
        (fun s => decide (s.name = n))).getLast? = some s2) :
    alGet (sprintMetricsMap issues sdt edt) n
        = some (mkSprintMetrics s2 (memberIssues issues s2.id))
    ∧ (alKeys (sprintMetricsMap issues sdt edt)).count n = 1 := by
  constructor
  · rw [alGet_sprintMetricsMap, hlast, Option.map_some']
  · have hnd : (alKeys (sprintMetricsMap issues sdt edt)).Nodup := by
      rw [sprintMetricsMap]
      exact alKeys_foldl_nodup (fun s : SprintInfo => s.name)
        (fun s _ => mkSprintMetrics s (memberIssues issues s.id)) _ []
        (by simp [alKeys])
    have hsome : (alGet (sprintMetricsMap issues sdt edt) n).isSome = true := by
      rw [alGet_sprintMetricsMap, hlast, Option.map_some']
      rfl
    have hmem : n ∈ alKeys (sprintMetricsMap issues sdt edt) :=
      (alGet_isSome_iff _ _).mp hsome
    exact List.count_eq_one_of_mem hnd hmem

theorem C9_witness :
    alGet (sprintMetricsMap egIssues2 egStart egEnd) "Sprint Alpha"
        = some (mkSprintMetrics (mkSprintInfo 2 egEntry2) (memberIssues egIssues2 2))
    ∧ (alKeys (sprintMetricsMap egIssues2 egStart egEnd)).count "Sprint Alpha" = 1 :=
  C9_name_collision egIssues2 egStart egEnd (mkSprintInfo 1 egEntry1)
    (mkSprintInfo 2 egEntry2) "Sprint Alpha" (by decide) (by decide) rfl rfl
    (by decide) (by decide)

/-- C10: an issue contributes at most once to a sprint's metrics even when
its sprint field lists the same sprint id several times: the member filter
asks only whether the id OCCURS in the recorded id list, so any two
membership maps that agree as sets (`idSetsAgree`) produce identical member
lists, and each issue occurs in the member list at most as often as in the
input list. -/
theorem C10_membership_ignores_multiplicity (issues : List Issue) (sid : Int)
    (m n : List (String × List Int)) (h : idSetsAgree m n = true) :
    memberIssuesWith m issues sid = memberIssuesWith n issues sid
    ∧ ∀ i : Issue, (memberIssuesWith m issues sid).count i ≤ issues.count i :=
  ⟨memberIssuesWith_congr m n issues sid h,
    fun i => memberIssuesWith_count_le m issues sid i⟩

theorem C10_witness :
    idSetsAgree (issueSprintMap egIssuesDup) [("PROJ-4", [5])] = true
    ∧ memberIssuesWith (issueSprintMap egIssuesDup) egIssuesDup 5
        = memberIssuesWith [("PROJ-4", [5])] egIssuesDup 5
    ∧ (memberIssuesWith (issueSprintMap egIssuesDup) egIssuesDup 5).count egIssueD
        ≤ egIssuesDup.count egIssueD :=
  ⟨by decide,
    (C10_membership_ignores_multiplicity egIssuesDup 5 (issueSprintMap egIssuesDup)
        [("PROJ-4", [5])] (by decide)).1,
    (C10_membership_ignores_multiplicity egIssuesDup 5 (issueSprintMap egIssuesDup)
        [("PROJ-4", [5])] (by decide)).2 egIssueD⟩

end EiqJira
